import Mathlib

/-!
# Verification of the ibis template engine (src/python/ibis/)

Shallow embedding of the template engine bundled with the repository:
* `errors.py`   — the `Undefined` sentinel (modelled through explicit Python
  protocol functions over the value universe).
* `templates.py` — `Template._parse`, `Template._register_blocks`,
  `Context` (stack, resolve, defined, push/pop), and the `Lexer`.
* `nodes.py`    — the node classes and their `render`/`exit_scope` methods,
  and the `Expression` evaluator at the level of compiled expressions.

Python values reachable from template data are modelled by the inductive
`Value`.  Callables are defunctionalised into `PyFunc` (the engine's own
builtins `defined`, `range`, the external clock `now`, the `super` closure
bound by `BlockNode.render_block`, and an abstract raising callable standing
for a user callable that throws).  Mutation of the single per-render
`Context` object is modelled by threading a `Ctx` value through every
function; exceptions are modelled by `Except` results that still carry the
context state at the moment the exception was raised (Python exceptions do
not undo mutations, which matters for `IfNode.eval_condition`'s swallowed
failures).  Render-time recursion is bounded by explicit fuel: every engine
function consumes one unit of fuel on entry, so all statements about the
engine are fuel-parametric.
-/

/-- Defunctionalised callables: the `defined` bound method placed in the
builtins scope by `Context.__init__`, the `range` and `now` entries of
`config.builtins`, the `super` closure bound by `BlockNode.render_block`
(carrying the block title and the identities of the remaining ancestor
blocks), and an abstract callable that raises when invoked (modelling a
user-supplied callable that throws). -/
inductive PyFunc where
  | definedF
  | rangeF
  | nowF
  | superF (title : String) (remaining : List Nat)
  | raisingF (msg : String)
deriving DecidableEq, Repr

/-- Python values reachable from template data, as used by the engine.
`vdict` models a `dict` (mapping lookup only); `vobj` models an object
exposing both the mapping protocol (`items`) and named attributes
(`attrs`) but no `__iter__`; `vcontext` is the render's single `Context`
object (reachable through the `context` builtin); `vundef` is the
`Undefined` sentinel from `errors.py`. -/
inductive Value where
  | vint (n : Int)
  | vstr (s : String)
  | vbool (b : Bool)
  | vnone
  | vlist (xs : List Value)
  | vdict (entries : List (String × Value))
  | vobj (items : List (String × Value)) (attrs : List (String × Value))
  | vfunc (f : PyFunc)
  | vcontext
  | vundef

open Value

mutual

/-- Python `repr` for the modelled value universe (used by `ForNode`'s
unpacking-error message; string escaping corners are not modelled). -/
def pyRepr : Value → String
  | vint n => toString n
  | vstr s => "'" ++ s ++ "'"
  | vbool true => "True"
  | vbool false => "False"
  | vnone => "None"
  | vlist xs => "[" ++ pyReprList xs ++ "]"
  | vdict es => "\x7b" ++ pyReprDict es ++ "\x7d"
  | vobj _ _ => "<object>"
  | vfunc _ => "<function>"
  | vcontext => "<context>"
  | vundef => "<undefined>"

def pyReprList : List Value → String
  | [] => ""
  | [x] => pyRepr x
  | x :: xs => pyRepr x ++ ", " ++ pyReprList xs

def pyReprDict : List (String × Value) → String
  | [] => ""
  | [(k, v)] => "'" ++ k ++ "': " ++ pyRepr v
  | (k, v) :: es => "'" ++ k ++ "': " ++ pyRepr v ++ ", " ++ pyReprDict es

end

/-- Python `str` for the modelled value universe (`PrintNode` applies `str`
to every printed value; `errors.py` gives `Undefined.__str__` returning
the empty string). -/
def pyStr : Value → String
  | vstr s => s
  | vundef => ""
  | v => pyRepr v

/-- Python truthiness (`errors.py` gives `Undefined.__bool__` returning
`False`; containers are truthy iff non-empty; objects without `__bool__`
or `__len__` are truthy). -/
def pyTruth : Value → Bool
  | vint n => n != 0
  | vstr s => s != ""
  | vbool b => b
  | vnone => false
  | vlist xs => !xs.isEmpty
  | vdict es => !es.isEmpty
  | vobj _ _ => true
  | vfunc _ => true
  | vcontext => true
  | vundef => false

/-- Python `len`, where defined (`Undefined.__len__` returns `0`;
non-sized values have no length — `none` models the `TypeError`). -/
def pyLen : Value → Option Nat
  | vstr s => some s.length
  | vlist xs => some xs.length
  | vdict es => some es.length
  | vundef => some 0
  | _ => none

/-- The result of Python's `iter(v)` followed by exhausting the iterator,
for values that expose `__iter__`: lists yield their elements, strings
their characters, dicts their keys, and the `Undefined` sentinel yields
nothing (`errors.py` makes it its own immediately-exhausted iterator).
`none` models the absence of `__iter__` (`hasattr(v, '__iter__')` false). -/
def iterElems : Value → Option (List Value)
  | vlist xs => some xs
  | vstr s => some (s.data.map (fun c => vstr (String.mk [c])))
  | vdict es => some (es.map (fun e => vstr e.1))
  | vundef => some []
  | _ => none

mutual

/-- Python `==` over the modelled universe.  `errors.py` defines
`Undefined.__eq__` as constantly `False`, and reflected comparison makes
`x == u` false for every other `x` as well; booleans compare numerically
equal to `0`/`1` as in Python; functions and objects compare by identity,
which the defunctionalised model approximates structurally. -/
def pyEq : Value → Value → Bool
  | vundef, _ => false
  | _, vundef => false
  | vint n, vint m => n == m
  | vint n, vbool b => n == (if b then 1 else 0)
  | vbool b, vint n => (if b then (1 : Int) else 0) == n
  | vbool b, vbool c => b == c
  | vstr s, vstr t => s == t
  | vnone, vnone => true
  | vlist xs, vlist ys => pyEqList xs ys
  | vdict es, vdict fs => pyEqDict es fs
  | vfunc f, vfunc g => f == g
  | vcontext, vcontext => true
  | _, _ => false

def pyEqList : List Value → List Value → Bool
  | [], [] => true
  | x :: xs, y :: ys => pyEq x y && pyEqList xs ys
  | _, _ => false

/-- Dict equality; Python dict equality is key-set based, which this
assoc-list approximation renders as order-sensitive entry equality. -/
def pyEqDict : List (String × Value) → List (String × Value) → Bool
  | [], [] => true
  | (k, v) :: es, (l, w) :: fs => k == l && pyEq v w && pyEqDict es fs
  | _, _ => false

end

/-- Python `!=`.  `errors.py` defines `Undefined.__ne__` as constantly
`True` (so even `u != u` holds); for every other pair it is the negation
of `==`. -/
def pyNe (a b : Value) : Bool :=
  match a, b with
  | vundef, _ => true
  | _, vundef => true
  | _, _ => !pyEq a b

/-- Substring test on character lists (Python `t in s` for strings). -/
def substrScan (needle : List Char) : List Char → Bool
  | [] => needle.isEmpty
  | c :: h => needle.isPrefixOf (c :: h) || substrScan needle h

/-- Python `x in c` where defined (`none` models the `TypeError` raised by
a non-container; membership in the `Context` object is handled at the
operator level, where the scope stack is available).  `errors.py` defines
`Undefined.__contains__` as constantly `False`. -/
def pyContains (c x : Value) : Option Bool :=
  match c with
  | vlist xs => some (xs.any (fun y => pyEq y x))
  | vstr s => match x with
      | vstr t => some (substrScan t.data s.data)
      | _ => none
  | vdict es => some (es.any (fun e => pyEq (vstr e.1) x))
  | vobj items _ => some (items.any (fun e => pyEq (vstr e.1) x))
  | vundef => some false
  | _ => none

/-! ## String helpers (Python `str.strip`, HTML escaping, spaceless) -/

/-- Python whitespace, as recognised by `str.strip` / `str.split`. -/
def isPySpace (c : Char) : Bool :=
  c = ' ' || c = '\t' || c = '\n' || c = '\r' || c = '\x0b' || c = '\x0c'

/-- Python `str.strip()` on a character list. -/
def pyStripChars (cs : List Char) : List Char :=
  ((cs.dropWhile isPySpace).reverse.dropWhile isPySpace).reverse

/-- Python `str.strip()`. -/
def pyStrip (s : String) : String :=
  String.mk (pyStripChars s.data)

/-- Modelled from the spec: the `escape` entry of the engine's filter table
(`ibis/filters.py` is not among the provided sources); HTML-escapes the
five significant characters. -/
def escapeHTML (s : String) : String :=
  String.join (s.data.map (fun c =>
    if c = '&' then "&amp;"
    else if c = '<' then "&lt;"
    else if c = '>' then "&gt;"
    else if c = '"' then "&quot;"
    else if c = '\'' then "&#x27;"
    else String.mk [c]))

theorem dropWhileLenLe (p : Char → Bool) (l : List Char) :
    (l.dropWhile p).length ≤ l.length := by
  induction l with
  | nil => simp [List.dropWhile]
  | cons c cs ih =>
      by_cases h : p c
      · simp only [List.dropWhile, h]
        exact Nat.le_succ_of_le ih
      · simp [List.dropWhile, h]

/-- Modelled from the spec: the `spaceless` filter strips whitespace runs
between an HTML closing angle and the next opening angle
(`ibis/filters.py` is not among the provided sources). -/
def spacelessChars : List Char → List Char
  | [] => []
  | c :: cs =>
      if c = '>' && !(cs.takeWhile isPySpace).isEmpty
          && (cs.dropWhile isPySpace).head? = some '<' then
        c :: spacelessChars (cs.dropWhile isPySpace)
      else c :: spacelessChars cs
termination_by cs => cs.length
decreasing_by
  all_goals first
    | simpa using Nat.lt_succ_of_le (dropWhileLenLe isPySpace _)
    | simp

/-- Modelled from the spec: the `spaceless` filter on strings. -/
def spacelessStr (s : String) : String :=
  String.mk (spacelessChars s.data)

/-! ## Compiled expressions (`nodes.py`, class `Expression`)

Expression strings are parsed at compile time (`Expression.__init__`); the
claims under verification concern render-time behaviour, so expressions are
embedded in compiled form: either a literal whose filters were already
applied at compile time, or a variable reference carrying the original
expression text (for error messages), the dotted path, the parsed literal
call arguments, and the deferred filter chain. -/

/-- Modelled from the spec: identities of filter-table entries
(`ibis/filters.py` is not among the provided sources).  `raisingFilter`
stands for a registered filter whose function raises on the given value,
which the spec's error taxonomy allows for. -/
inductive FilterId where
  | escapeFilter
  | spacelessFilter
  | defaultFilter
  | raisingFilter (msg : String)
deriving DecidableEq, Repr

/-- One compiled filter application: `(name, function, args)` triple from
`Expression._parse_filters`. -/
structure FilterApp where
  name : String
  fid : FilterId
  args : List Value

/-- A compiled expression (`Expression`): literal with filters pre-applied,
or a variable reference with call arguments and deferred filters. -/
inductive Expr where
  | lit (v : Value)
  | varE (src : String) (path : String) (args : List Value) (filters : List FilterApp)

/-- Comparison operators of `IfNode.operators`. -/
inductive CmpOp where
  | opEq | opNe | opLt | opGt | opLe | opGe | opIn | opNotIn
deriving DecidableEq, Repr

/-- One parsed condition (`IfNode.condition` namedtuple).  The source keeps
`op` and `rhs` as two fields that `parse_condition` always sets together;
they are paired here. -/
structure Condition where
  negated : Bool
  lhs : Expr
  cmp : Option (CmpOp × Expr)

/-- One `and`-group of conditions; `IfNode.process_token` always produces
at least one condition per group. -/
abbrev CondGroup := Condition × List Condition

/-- The `or`-separated groups; always at least one. -/
abbrev CondGroups := CondGroup × List CondGroup

/-- Compiled body of a print tag (`PrintNode.process_token`): either the
ternary form `test ?? a :: b` or an `or`-chain (at least one expression). -/
inductive PrintSpec where
  | ternary (test ifTrue ifFalse : Expr)
  | orChain (first : Expr) (rest : List Expr)

/-! ## The compiled node tree (`nodes.py`)

Sealed nodes as they exist after `Template._parse` has run `exit_scope`.
Every constructor keeps the node's original `children` list (the block
registry is assembled by walking `children`, and `exit_scope` does not
clear it); `forN`/`ifN` additionally carry the branch wrapper nodes that
`exit_scope` builds.  `cycleN` and `blockN` carry a `Nat` identity standing
for Python object identity (they are the node types keyed by identity in
the context stash and the block registry). -/
inductive TNode where
  | text (content : String) (children : List TNode)
  | printN (escape : Bool) (ps : PrintSpec) (children : List TNode)
  | seq (children : List TNode)
  | emptyN (children : List TNode)
  | elifN (groups : CondGroups) (children : List TNode)
  | elseN (children : List TNode)
  | forN (src : String) (var0 : String) (varRest : List String) (e : Expr)
      (forBranch emptyBranch : TNode) (children : List TNode)
  | ifN (groups : CondGroups) (trueBranch falseBranch : TNode) (children : List TNode)
  | cycleN (id : Nat) (e : Expr) (children : List TNode)
  | includeN (e : Option Expr) (children : List TNode)
  | extendsN (children : List TNode)
  | blockN (id : Nat) (title : String) (children : List TNode)
  | spacelessN (children : List TNode)
  | trimN (children : List TNode)
  | withN (aliasName : String) (e : Expr) (children : List TNode)

/-- Association-list lookup (first match), the shape of every keyed lookup
in the model. -/
def alookup {α : Type} : List (String × α) → String → Option α
  | [], _ => none
  | (k, v) :: rest, key => if k = key then some v else alookup rest key

/-- Lookup in the context stash (keyed by node identity). -/
def nlookup {α : Type} : List (Nat × α) → Nat → Option α
  | [], _ => none
  | (k, v) :: rest, key => if k = key then some v else nlookup rest key

/-- Replace-or-append update of the stash. -/
def nstore {α : Type} : List (Nat × α) → Nat → α → List (Nat × α)
  | [], key, v => [(key, v)]
  | (k, w) :: rest, key, v =>
      if k = key then (k, v) :: rest else (k, w) :: nstore rest key v

/-- One scope dictionary of the context stack. -/
abbrev Scope := List (String × Value)

/-- Python dict assignment `d[k] = v` on the assoc-list model. -/
def scopeSet : Scope → String → Value → Scope
  | [], k, v => [(k, v)]
  | (k1, v1) :: rest, k, v =>
      if k1 = k then (k, v) :: rest else (k1, v1) :: scopeSet rest k v

/-- State of one `itertools.cycle` iterator stored in the stash by
`CycleNode.render`: the cycled item list and the position of the next
item. -/
abbrev CycleSt := List Value × Nat

/-- The mutable state of the per-render `Context` object of
`templates.py`: the scope stack (last element on top, as in the Python
list) and the node stash.  The context's remaining fields never change
during a render and live in `Env`. -/
structure Ctx where
  stack : List Scope
  stash : List (Nat × CycleSt)

/-- The render-immutable surroundings: `registry` is the owning template's
block registry (`context.template.registry`, holding block-node
identities and their child lists), `loader` models `config.loader` (an
external callable from template ids to compiled template roots), and
`clock` models the external `now` builtin's return value. -/
structure Env where
  registry : List (String × List (Nat × List TNode))
  loader : Value → Option TNode
  clock : Value

/-- `Context.push` (appends a new scope on top). -/
def ctxPush (ctx : Ctx) (d : Scope) : Ctx :=
  { ctx with stack := ctx.stack ++ [d] }

/-- `Context.pop`. -/
def ctxPop (ctx : Ctx) : Ctx :=
  { ctx with stack := ctx.stack.dropLast }

/-- Assignment into the top scope of a stack (`Context.__setitem__`). -/
def setTopScope : List Scope → String → Value → List Scope
  | [], _, _ => []
  | [s], k, v => [scopeSet s k v]
  | s :: rest, k, v => s :: setTopScope rest k v

/-- `Context.__setitem__`. -/
def ctxSet (ctx : Ctx) (k : String) (v : Value) : Ctx :=
  { ctx with stack := setTopScope ctx.stack k v }

/-- `Context.update` (dict.update on the top scope, one key at a time). -/
def ctxUpdate (ctx : Ctx) (binds : List (String × Value)) : Ctx :=
  binds.foldl (fun c kv => ctxSet c kv.1 kv.2) ctx

/-- `Context.__getitem__`: scan every scope from the top of the stack
down, returning the first binding found (`none` models the `KeyError`). -/
def ctxGetItem (ctx : Ctx) (k : String) : Option Value :=
  (ctx.stack.reverse.map (fun s => alookup s k)).foldl (fun acc o => acc.orElse (fun _ => o)) none

/-- `Context.get` with default. -/
def ctxGet (ctx : Ctx) (k : String) (default : Value) : Value :=
  match ctxGetItem ctx k with
  | some v => v
  | none => default

/-- `Context.__contains__`. -/
def ctxHasKey (ctx : Ctx) (k : String) : Bool :=
  ctx.stack.any (fun s => (alookup s k).isSome)

/-- Mapping-style lookup for one path segment of `Context.resolve`
(`obj[token]`): on the context object itself this scans the scope stack;
on a value it is the mapping protocol.  `none` models the caught
`TypeError`/`KeyError`. -/
def objGetItem (ctx : Ctx) : Value → String → Option Value
  | vcontext, k => ctxGetItem ctx k
  | vdict es, k => alookup es k
  | vobj items _, k => alookup items k
  | _, _ => none

/-- Attribute-style fallback of `Context.resolve` (`getattr(obj, token)`).
Attributes of the `Context` object itself (its Python methods) are outside
the modelled value universe.  `none` models the caught
`TypeError`/`AttributeError`. -/
def objGetAttr : Value → String → Option Value
  | vobj _ attrs, k => alookup attrs k
  | _, _ => none

/-- Python `str.split(sep)` for a single-character separator, on
character lists (splitting an empty string yields one empty chunk, as in
Python). -/
def splitOnChar (sep : Char) : List Char → List (List Char)
  | [] => [[]]
  | c :: rest =>
      if c = sep then [] :: splitOnChar sep rest
      else
        match splitOnChar sep rest with
        | [] => [[c]]
        | h :: t => (c :: h) :: t

/-- The segment loop of `Context.resolve`: starting from the context
object, each segment tries mapping-style lookup then attribute-style
lookup; on double failure the loop breaks with the `Undefined` sentinel,
ignoring all remaining segments. -/
def resolveVal (ctx : Ctx) : Value → List String → Value
  | obj, [] => obj
  | obj, t :: ts =>
      match objGetItem ctx obj t with
      | some o => resolveVal ctx o ts
      | none =>
          match objGetAttr obj t with
          | some o => resolveVal ctx o ts
          | none => vundef

/-- `Context.resolve`: split the path on `.` and run the segment loop from
the context object. -/
def resolve (ctx : Ctx) (varstring : String) : Value :=
  resolveVal ctx vcontext ((splitOnChar '.' varstring.data).map String.mk)

/-- True iff the value is the `Undefined` sentinel
(`isinstance(·, Undefined)`). -/
def isUndef : Value → Bool
  | vundef => true
  | _ => false

/-- `Context.defined`. -/
def ctxDefined (ctx : Ctx) (varstring : String) : Bool :=
  !isUndef (resolve ctx varstring)

/-! ## Block registry assembly (`Template._register_blocks`) -/

/-- The registry type: block title to the ordered list of block nodes
(identity, children), in tree preorder. -/
abbrev Registry := List (String × List (Nat × List TNode))

/-- `registry.setdefault(title, []).append(node)`. -/
def regAdd (reg : Registry) (title : String) (entry : Nat × List TNode) : Registry :=
  match reg with
  | [] => [(title, [entry])]
  | (t, es) :: rest =>
      if t = title then (t, es ++ [entry]) :: rest
      else (t, es) :: regAdd rest title entry

mutual

/-- `Template._register_blocks`: preorder walk appending every block node
(by identity, with its children) to its title's list. -/
def registerBlocks : TNode → Registry → Registry
  | .text _ ch, reg => registerBlocksList ch reg
  | .printN _ _ ch, reg => registerBlocksList ch reg
  | .seq ch, reg => registerBlocksList ch reg
  | .emptyN ch, reg => registerBlocksList ch reg
  | .elifN _ ch, reg => registerBlocksList ch reg
  | .elseN ch, reg => registerBlocksList ch reg
  | .forN _ _ _ _ _ _ ch, reg => registerBlocksList ch reg
  | .ifN _ _ _ ch, reg => registerBlocksList ch reg
  | .cycleN _ _ ch, reg => registerBlocksList ch reg
  | .includeN _ ch, reg => registerBlocksList ch reg
  | .extendsN ch, reg => registerBlocksList ch reg
  | .blockN id title ch, reg => registerBlocksList ch (regAdd reg title (id, ch))
  | .spacelessN ch, reg => registerBlocksList ch reg
  | .trimN ch, reg => registerBlocksList ch reg
  | .withN _ _ ch, reg => registerBlocksList ch reg

def registerBlocksList : List TNode → Registry → Registry
  | [], reg => reg
  | n :: ns, reg => registerBlocksList ns (registerBlocks n reg)

end

/-! ## Render-time errors (`errors.py`) -/

/-- Render-time exceptions: `CallError`, `FilterError`, `UnpackingError`,
`TemplateNotFound` from `errors.py`, plus the host exceptions a render can
surface (`KeyError` from a block title missing from the registry,
`IndexError`, `TypeError`) and fuel exhaustion of the model. -/
inductive RErr where
  | callError (msg : String)
  | filterError (msg : String)
  | unpackingError (msg : String)
  | templateNotFound
  | keyError (key : String)
  | indexError
  | typeError
  | outOfFuel
deriving DecidableEq, Repr

/-- Modelled from the spec: application of one registered filter function
(`ibis/filters.py` is not among the provided sources); a `.error` result
models the filter function raising. -/
def applyFilter : FilterId → Value → List Value → Except String Value
  | .escapeFilter, v, _ =>
      match v with
      | vstr s => .ok (vstr (escapeHTML s))
      | _ => .error "escape expects a string"
  | .spacelessFilter, v, _ =>
      match v with
      | vstr s => .ok (vstr (spacelessStr s))
      | _ => .error "spaceless expects a string"
  | .defaultFilter, v, [d] => .ok (if pyTruth v then v else d)
  | .defaultFilter, _, _ => .error "default expects one argument"
  | .raisingFilter msg, _, _ => .error msg

/-- `Expression._apply_filters`: left-to-right application, wrapping any
failure into a `FilterError` naming the filter and the original
expression text. -/
def applyFilters (src : String) : List FilterApp → Value → Except RErr Value
  | [], v => .ok v
  | f :: rest, v =>
      match applyFilter f.fid v f.args with
      | .ok w => applyFilters src rest w
      | .error _ =>
          .error (.filterError ("error applying filter [" ++ f.name ++ "] in [" ++ src ++ "]"))

mutual

/-- Python rich comparison (`<`, `>`, `<=`, `>=`) over the modelled
universe; `none` models the `TypeError` between incomparable types. -/
def pyCmp : Value → Value → Option Ordering
  | vint n, vint m => some (compare n m)
  | vint n, vbool b => some (compare n (if b then 1 else 0))
  | vbool b, vint m => some (compare (if b then (1 : Int) else 0) m)
  | vbool b, vbool c => some (compare (if b then (1 : Int) else 0) (if c then 1 else 0))
  | vstr s, vstr t => some (compare s t)
  | vlist xs, vlist ys => pyCmpList xs ys
  | _, _ => none

def pyCmpList : List Value → List Value → Option Ordering
  | [], [] => some .eq
  | [], _ :: _ => some .lt
  | _ :: _, [] => some .gt
  | x :: xs, y :: ys =>
      match pyCmp x y with
      | some .eq => pyCmpList xs ys
      | r => r

end

/-- Application of one operator from `IfNode.operators`.  Membership tests
against the `Context` object use its `__contains__` (scope-stack scan). -/
def applyOp (ctx : Ctx) (op : CmpOp) (a b : Value) : Except RErr Bool :=
  match op with
  | .opEq => .ok (pyEq a b)
  | .opNe => .ok (pyNe a b)
  | .opLt =>
      match pyCmp a b with
      | some o => .ok (o == Ordering.lt)
      | none => .error .typeError
  | .opGt =>
      match pyCmp a b with
      | some o => .ok (o == Ordering.gt)
      | none => .error .typeError
  | .opLe =>
      match pyCmp a b with
      | some o => .ok (o == Ordering.lt || o == Ordering.eq)
      | none => .error .typeError
  | .opGe =>
      match pyCmp a b with
      | some o => .ok (o == Ordering.gt || o == Ordering.eq)
      | none => .error .typeError
  | .opIn =>
      match b with
      | vcontext => .ok (match a with | vstr s => ctxHasKey ctx s | _ => false)
      | _ =>
          match pyContains b a with
          | some r => .ok r
          | none => .error .typeError
  | .opNotIn =>
      match b with
      | vcontext => .ok (match a with | vstr s => !ctxHasKey ctx s | _ => true)
      | _ =>
          match pyContains b a with
          | some r => .ok !r
          | none => .error .typeError

/-- The `loop` record injected by `ForNode.render` for one iteration. -/
def loopRecord (idx len : Nat) (parent : Value) : Value :=
  vdict [("index", vint idx), ("count", vint (idx + 1)), ("length", vint len),
         ("is_first", vbool (decide (idx = 0))), ("first", vbool (decide (idx = 0))),
         ("is_last", vbool (decide ((idx : Int) = (len : Int) - 1))),
         ("last", vbool (decide ((idx : Int) = (len : Int) - 1))),
         ("parent", parent)]

/-! ## The render engine (`nodes.py` render methods, fuel-indexed)

Every function consumes one unit of fuel on entry and passes the remaining
fuel to every call, so recursion is well-founded on the fuel alone; an
exhausted-fuel result is the `outOfFuel` error (for `Except`-valued
functions) or a `false` verdict (for the total condition evaluators, whose
Python originals swallow every evaluation failure). -/

mutual

/-- `render(context)` of each node class of `nodes.py`. -/
def renderNode (fuel : Nat) (env : Env) (n : TNode) (ctx : Ctx) :
    Except RErr String × Ctx :=
  match fuel with
  | 0 => (.error .outOfFuel, ctx)
  | f + 1 =>
      match n with
      | .text content _ => (.ok content, ctx)
      | .printN escape ps _ =>
          match evalPrint f env ps ctx with
          | (.ok v, c1) =>
              (.ok (if escape then escapeHTML (pyStr v) else pyStr v), c1)
          | (.error er, c1) => (.error er, c1)
      | .seq ch => renderList f env ch ctx
      | .emptyN ch => renderList f env ch ctx
      | .elifN _ ch => renderList f env ch ctx
      | .elseN ch => renderList f env ch ctx
      | .forN src v0 vs e fb eb _ =>
          match evalExpr f env e ctx with
          | (.error er, c1) => (.error er, c1)
          | (.ok v, c1) =>
              match iterElems v with
              | some items =>
                  if pyTruth v then forIter f env src v0 vs fb items 0 items.length c1
                  else renderNode f env eb c1
              | none => renderNode f env eb c1
      | .ifN (g, gs) tb fb _ =>
          match evalGroups f env g gs ctx with
          | (b, c1) => renderNode f env (if b then tb else fb) c1
      | .cycleN id e _ =>
          match nlookup ctx.stash id with
          | some (items, pos) =>
              match items with
              | [] => (.ok "", ctx)
              | x :: xs =>
                  (.ok (pyStr ((x :: xs).getD (pos % (x :: xs).length) vnone)),
                   { ctx with stash := nstore ctx.stash id (x :: xs, pos + 1) })
          | none =>
              match evalExpr f env e ctx with
              | (.error er, c1) => (.error er, c1)
              | (.ok v, c1) =>
                  let items := match iterElems v with
                    | some xs => xs
                    | none => []
                  match items with
                  | [] => (.ok "", { c1 with stash := nstore c1.stash id ([], 0) })
                  | x :: xs =>
                      (.ok (pyStr x),
                       { c1 with stash := nstore c1.stash id (x :: xs, 1) })
      | .includeN eOpt ch =>
          match ch with
          | _ :: _ => renderList f env ch ctx
          | [] =>
              match eOpt with
              | some e =>
                  match evalExpr f env e ctx with
                  | (.error er, c1) => (.error er, c1)
                  | (.ok v, c1) =>
                      match env.loader v with
                      | some root => renderNode f env root c1
                      | none => (.error .templateNotFound, c1)
              | none => (.error .typeError, ctx)
      | .extendsN ch => renderList f env ch ctx
      | .blockN id title _ =>
          match alookup env.registry title with
          | none => (.error (.keyError title), ctx)
          | some [] => (.error .indexError, ctx)
          | some ((fid, fch) :: rest) =>
              if fid = id then renderBlockList f env title ((fid, fch) :: rest) ctx
              else (.ok "", ctx)
      | .spacelessN ch =>
          match renderList f env ch ctx with
          | (.ok s, c1) => (.ok (pyStrip (spacelessStr s)), c1)
          | (.error er, c1) => (.error er, c1)
      | .trimN ch =>
          match renderList f env ch ctx with
          | (.ok s, c1) => (.ok (pyStrip s), c1)
          | (.error er, c1) => (.error er, c1)
      | .withN aliasName e ch =>
          let c1 := ctxPush ctx []
          match evalExpr f env e c1 with
          | (.error er, c2) => (.error er, c2)
          | (.ok v, c2) =>
              let c3 := ctxSet c2 aliasName v
              match renderList f env ch c3 with
              | (.ok s, c4) => (.ok s, ctxPop c4)
              | (.error er, c4) => (.error er, c4)
termination_by structural fuel

/-- `''.join(child.render(context) for child in children)`. -/
def renderList (fuel : Nat) (env : Env) (ns : List TNode) (ctx : Ctx) :
    Except RErr String × Ctx :=
  match fuel with
  | 0 => (.error .outOfFuel, ctx)
  | f + 1 =>
      match ns with
      | [] => (.ok "", ctx)
      | n :: rest =>
          match renderNode f env n ctx with
          | (.error er, c1) => (.error er, c1)
          | (.ok s, c1) =>
              match renderList f env rest c1 with
              | (.ok t, c2) => (.ok (s ++ t), c2)
              | (.error er, c2) => (.error er, c2)
termination_by structural fuel

/-- The per-item loop of `ForNode.render`: push a fresh scope, bind the
loop variable (or unpack into several), inject the `loop` record, render
the for-branch, pop, and concatenate in item order. -/
def forIter (fuel : Nat) (env : Env) (src : String) (v0 : String)
    (vs : List String) (branch : TNode) (items : List Value) (idx len : Nat)
    (ctx : Ctx) : Except RErr String × Ctx :=
  match fuel with
  | 0 => (.error .outOfFuel, ctx)
  | f + 1 =>
      match items with
      | [] => (.ok "", ctx)
      | item :: rest =>
          let c1 := ctxPush ctx []
          let bound : Except RErr Ctx :=
            match vs with
            | [] => .ok (ctxSet c1 v0 item)
            | _ :: _ =>
                match iterElems item with
                | none =>
                    .error (.unpackingError
                      ("cannot unpack [" ++ pyRepr item ++ "] in [" ++ src ++ "]"))
                | some parts =>
                    .ok (ctxUpdate c1 ((v0 :: vs).zip parts))
          match bound with
          | .error er => (.error er, c1)
          | .ok c2 =>
              let parent := ctxGet c2 "loop" vnone
              let c3 := ctxSet c2 "loop" (loopRecord idx len parent)
              match renderNode f env branch c3 with
              | (.error er, c4) => (.error er, c4)
              | (.ok s, c4) =>
                  let c5 := ctxPop c4
                  match forIter f env src v0 vs branch rest (idx + 1) len c5 with
                  | (.ok t, c6) => (.ok (s ++ t), c6)
                  | (.error er, c6) => (.error er, c6)
termination_by structural fuel

/-- `BlockNode.render_block`: render the last (most-derived) node of the
block list inside a freshly pushed scope binding `super` to a closure over
the remaining ancestors, popping the scope afterwards. -/
def renderBlockList (fuel : Nat) (env : Env) (title : String)
    (entries : List (Nat × List TNode)) (ctx : Ctx) : Except RErr String × Ctx :=
  match fuel with
  | 0 => (.error .outOfFuel, ctx)
  | f + 1 =>
      match entries with
      | [] => (.ok "", ctx)
      | e :: es =>
          let lastE := (e :: es).getLastD (0, [])
          let remaining := (e :: es).dropLast
          let c1 := ctxPush ctx
            [("super", vfunc (.superF title (remaining.map Prod.fst)))]
          match renderList f env lastE.2 c1 with
          | (.ok out, c2) => (.ok out, ctxPop c2)
          | (.error er, c2) => (.error er, c2)
termination_by structural fuel

/-- `Expression.eval`: literals return their cached value; variable
references resolve the dotted path, invoke the result when callable
(wrapping failures into `CallError`), then apply the deferred filters. -/
def evalExpr (fuel : Nat) (env : Env) (e : Expr) (ctx : Ctx) :
    Except RErr Value × Ctx :=
  match fuel with
  | 0 => (.error .outOfFuel, ctx)
  | f + 1 =>
      match e with
      | .lit v => (.ok v, ctx)
      | .varE src path args fs =>
          match resolve ctx path with
          | vfunc fn =>
              match callFunc f env fn args ctx with
              | (.ok v, c1) =>
                  (match applyFilters src fs v with
                   | .ok w => (.ok w, c1)
                   | .error er => (.error er, c1))
              | (.error _, c1) =>
                  (.error (.callError ("error calling [" ++ path ++ "]")), c1)
          | v =>
              (match applyFilters src fs v with
               | .ok w => (.ok w, ctx)
               | .error er => (.error er, ctx))
termination_by structural fuel

/-- Invocation of a defunctionalised callable.  `defined` and `range` are
the engine's builtins; `now` returns the external clock value; `super`
reconstructs the captured remaining-ancestor list from the block registry
and renders it; the raising callable models a user callable that throws. -/
def callFunc (fuel : Nat) (env : Env) (fn : PyFunc) (args : List Value)
    (ctx : Ctx) : Except RErr Value × Ctx :=
  match fuel with
  | 0 => (.error .outOfFuel, ctx)
  | f + 1 =>
      match fn, args with
      | .definedF, [vstr s] => (.ok (vbool (ctxDefined ctx s)), ctx)
      | .definedF, _ => (.error .typeError, ctx)
      | .rangeF, [vint n] =>
          (.ok (vlist ((List.range n.toNat).map (fun i => vint i))), ctx)
      | .rangeF, [vint a, vint b] =>
          (.ok (vlist ((List.range (b - a).toNat).map (fun i => vint (a + i)))), ctx)
      | .rangeF, _ => (.error .typeError, ctx)
      | .nowF, [] => (.ok env.clock, ctx)
      | .nowF, _ => (.error .typeError, ctx)
      | .superF title ids, [] =>
          match alookup env.registry title with
          | none => (.error (.keyError title), ctx)
          | some entries =>
              match renderBlockList f env title
                  (entries.filter (fun e => ids.contains e.1)) ctx with
              | (.ok s, c1) => (.ok (vstr s), c1)
              | (.error er, c1) => (.error er, c1)
      | .superF _ _, _ => (.error .typeError, ctx)
      | .raisingF msg, _ => (.error (.callError msg), ctx)
termination_by structural fuel

/-- `PrintNode.render`'s expression part: ternary test or `or`-chain. -/
def evalPrint (fuel : Nat) (env : Env) (ps : PrintSpec) (ctx : Ctx) :
    Except RErr Value × Ctx :=
  match fuel with
  | 0 => (.error .outOfFuel, ctx)
  | f + 1 =>
      match ps with
      | .ternary t a b =>
          match evalExpr f env t ctx with
          | (.error er, c1) => (.error er, c1)
          | (.ok v, c1) =>
              if pyTruth v then evalExpr f env a c1 else evalExpr f env b c1
      | .orChain e rest => orChainEval f env e rest ctx
termination_by structural fuel

/-- The `or`-chain loop of `PrintNode.render`: first truthy value wins,
the last value is kept regardless. -/
def orChainEval (fuel : Nat) (env : Env) (e : Expr) (rest : List Expr)
    (ctx : Ctx) : Except RErr Value × Ctx :=
  match fuel with
  | 0 => (.error .outOfFuel, ctx)
  | f + 1 =>
      match evalExpr f env e ctx with
      | (.error er, c1) => (.error er, c1)
      | (.ok v, c1) =>
          if pyTruth v then (.ok v, c1)
          else
            match rest with
            | [] => (.ok v, c1)
            | e2 :: es => orChainEval f env e2 es c1
termination_by structural fuel

/-- The `try` body of `IfNode.eval_condition`: evaluate the left
expression, the right expression when an operator is present, and apply
the operator (or Python truth). -/
def evalCondRaw (fuel : Nat) (env : Env) (c : Condition) (ctx : Ctx) :
    Except RErr Bool × Ctx :=
  match fuel with
  | 0 => (.error .outOfFuel, ctx)
  | f + 1 =>
      match c.cmp with
      | some (op, rhs) =>
          match evalExpr f env c.lhs ctx with
          | (.error er, c1) => (.error er, c1)
          | (.ok a, c1) =>
              match evalExpr f env rhs c1 with
              | (.error er, c2) => (.error er, c2)
              | (.ok b, c2) =>
                  match applyOp c2 op a b with
                  | .ok r => (.ok r, c2)
                  | .error er => (.error er, c2)
      | none =>
          match evalExpr f env c.lhs ctx with
          | (.error er, c1) => (.error er, c1)
          | (.ok v, c1) => (.ok (pyTruth v), c1)
termination_by structural fuel

/-- `IfNode.eval_condition`: an exception during evaluation is swallowed
and treated as a `False` result, then the optional `not` is applied. -/
def evalCondition (fuel : Nat) (env : Env) (c : Condition) (ctx : Ctx) :
    Bool × Ctx :=
  match fuel with
  | 0 => (if c.negated then !false else false, ctx)
  | f + 1 =>
      match evalCondRaw f env c ctx with
      | (.ok b, c1) => (if c.negated then !b else b, c1)
      | (.error _, c1) => (if c.negated then !false else false, c1)
termination_by structural fuel

/-- The inner conjunction loop of `IfNode.render` (break on first false). -/
def evalGroupRest (fuel : Nat) (env : Env) (cs : List Condition) (ctx : Ctx) :
    Bool × Ctx :=
  match fuel with
  | 0 => (false, ctx)
  | f + 1 =>
      match cs with
      | [] => (true, ctx)
      | c :: rest =>
          match evalCondition f env c ctx with
          | (true, c1) => evalGroupRest f env rest c1
          | (false, c1) => (false, c1)
termination_by structural fuel

/-- The outer disjunction loop of `IfNode.render` (break on first group
whose conditions are all true). -/
def evalGroups (fuel : Nat) (env : Env) (g : CondGroup) (gs : List CondGroup)
    (ctx : Ctx) : Bool × Ctx :=
  match fuel with
  | 0 => (false, ctx)
  | f + 1 =>
      match evalCondition f env g.1 ctx with
      | (b0, c1) =>
          match (if b0 then evalGroupRest f env g.2 c1 else (false, c1)) with
          | (true, c2) => (true, c2)
          | (false, c2) =>
              match gs with
              | [] => (false, c2)
              | g2 :: rest => evalGroups f env g2 rest c2
termination_by structural fuel

end

/-! ## The lexer (`templates.py`, class `Lexer`)

The splitting regex `({%.*?%}|{{{.*?}}}|{{.*?}}|{#.*?#})` (built with
`re.DOTALL` from the default delimiters of `config.py`) is modelled as a
leftmost scan: at each position the four delimiter pairs are tried in the
alternation's order, each matching up to the first occurrence of its end
delimiter (non-greedy `.*?`); unmatched stretches become text fragments. -/

/-- Default delimiters from `config.py`. -/
def syntaxStartD : List Char := ['\x7b', '%']

def syntaxEndD : List Char := ['%', '\x7d']

def eprintStartD : List Char := ['\x7b', '\x7b', '\x7b']

def eprintEndD : List Char := ['\x7d', '\x7d', '\x7d']

def printStartD : List Char := ['\x7b', '\x7b']

def printEndD : List Char := ['\x7d', '\x7d']

def commentStartD : List Char := ['\x7b', '#']

def commentEndD : List Char := ['#', '\x7d']

/-- Split a character list at the first occurrence of `delim`, returning
the part before it and the part after it (the non-greedy `.*?end`). -/
def splitFirst (delim : List Char) : List Char → Option (List Char × List Char)
  | [] => if delim.isEmpty then some ([], []) else none
  | c :: cs =>
      if delim.isPrefixOf (c :: cs) then some ([], (c :: cs).drop delim.length)
      else
        match splitFirst delim cs with
        | some (b, a) => some (c :: b, a)
        | none => none

/-- One alternation branch: match `ds … de` at the head of the input,
returning the whole matched fragment and the rest. -/
def delimMatch (ds de : List Char) (cs : List Char) : Option (List Char × List Char) :=
  if ds.isPrefixOf cs then
    match splitFirst de (cs.drop ds.length) with
    | some (body, rest) => some (ds ++ body ++ de, rest)
    | none => none
  else none

/-- The full alternation at one position, in the regex's branch order
(syntax, escaped print, print, comment). -/
def matchAt (cs : List Char) : Option (List Char × List Char) :=
  match delimMatch syntaxStartD syntaxEndD cs with
  | some r => some r
  | none =>
      match delimMatch eprintStartD eprintEndD cs with
      | some r => some r
      | none =>
          match delimMatch printStartD printEndD cs with
          | some r => some r
          | none => delimMatch commentStartD commentEndD cs

theorem splitFirstLenLe (delim : List Char) :
    ∀ l b a, splitFirst delim l = some (b, a) → a.length ≤ l.length := by
  intro l
  induction l with
  | nil =>
      intro b a h
      by_cases hd : delim.isEmpty <;> simp [splitFirst, hd] at h
      simp [h.2]
  | cons c cs ih =>
      intro b a h
      by_cases hp : delim.isPrefixOf (c :: cs)
      · simp [splitFirst, hp] at h
        have := h.2
        subst this
        simpa using List.length_drop _ _ ▸ Nat.sub_le _ _
      · simp only [splitFirst, hp, if_neg, Bool.false_eq_true, if_false] at h
        match hs : splitFirst delim cs with
        | some (b2, a2) =>
            rw [hs] at h
            simp at h
            have := ih b2 a2 hs
            have ha : a = a2 := by simp [h.2]
            subst ha
            exact Nat.le_succ_of_le this
        | none => rw [hs] at h; simp at h

theorem delimMatchRestLt (ds de cs frag rest) (hds : ds ≠ []) :
    delimMatch ds de cs = some (frag, rest) → rest.length < cs.length := by
  intro h
  unfold delimMatch at h
  by_cases hp : ds.isPrefixOf cs
  · simp only [hp, if_pos] at h
    match hs : splitFirst de (cs.drop ds.length) with
    | some (body, r) =>
        rw [hs] at h
        simp at h
        have h1 := splitFirstLenLe de _ _ _ hs
        have h2 : (cs.drop ds.length).length = cs.length - ds.length :=
          List.length_drop _ _
        have h3 : ds.length ≤ cs.length := by
          have := List.isPrefixOf_iff_prefix.mp hp
          exact this.length_le
        have h4 : 0 < ds.length := List.length_pos.mpr hds
        have hr : rest = r := by simp [h.2]
        subst hr
        omega
    | none => rw [hs] at h; simp at h
  · simp [hp] at h

theorem matchAtRestLt (cs frag rest) :
    matchAt cs = some (frag, rest) → rest.length < cs.length := by
  intro h
  unfold matchAt at h
  cases h1 : delimMatch syntaxStartD syntaxEndD cs with
  | some p =>
      rw [h1] at h
      cases h
      exact delimMatchRestLt _ _ _ _ _ (by simp [syntaxStartD]) h1
  | none =>
  rw [h1] at h
  cases h2 : delimMatch eprintStartD eprintEndD cs with
  | some p =>
      rw [h2] at h
      cases h
      exact delimMatchRestLt _ _ _ _ _ (by simp [eprintStartD]) h2
  | none =>
  rw [h2] at h
  cases h3 : delimMatch printStartD printEndD cs with
  | some p =>
      rw [h3] at h
      cases h
      exact delimMatchRestLt _ _ _ _ _ (by simp [printStartD]) h3
  | none =>
  rw [h3] at h
  exact delimMatchRestLt _ _ _ _ _ (by simp [commentStartD]) h

/-- The splitting scan of `Lexer.__iter__`, bounded by structural fuel so
that it evaluates by kernel reduction: emit the text stretch before each
leftmost match, the matched fragment, and continue after it.  Empty text
stretches are suppressed (`if fragment:`).  Every step consumes at least
one character, so fuel equal to the input length (as supplied by
`lexScan`) never runs out; the fuel-exhausted base case (unreachable with
that fuel) flushes the remainder as text. -/
def lexScanF : Nat → List Char → List Char → List (List Char)
  | 0, pending, cs =>
      if (pending.reverse ++ cs).isEmpty then [] else [pending.reverse ++ cs]
  | f + 1, pending, cs =>
      match cs with
      | [] => if pending.isEmpty then [] else [pending.reverse]
      | c :: rest =>
          match matchAt (c :: rest) with
          | some (frag, after) =>
              (if pending.isEmpty then [] else [pending.reverse]) ++
                frag :: lexScanF f [] after
          | none => lexScanF f (c :: pending) rest

/-- The splitting scan with adequate fuel. -/
def lexScan (pending : List Char) (cs : List Char) : List (List Char) :=
  lexScanF cs.length pending cs

/-- Token kinds of `Lexer.token` (`type` field). -/
inductive TType where
  | ttext | tprint | teprint | tcomment | tsyn
deriving DecidableEq, Repr

/-- One lexer token: `collections.namedtuple('Token', 'type tag content')`. -/
structure Token where
  ttype : TType
  tag : Option String
  content : Option String
deriving DecidableEq, Repr

/-- `Lexer._strip`: cut the delimiters off a fragment and `str.strip` the
remainder (an over-short fragment yields the empty slice, as in Python). -/
def stripDelims (a b : Nat) (cs : List Char) : String :=
  pyStrip (String.mk ((cs.drop a).take ((cs.drop a).length - b)))

/-- `content.split(' ')[0]`: the chunk up to the first space character
(tabs and newlines do not delimit). -/
def splitSpaceHead (s : String) : String :=
  String.mk (s.data.takeWhile (fun c => c != ' '))

/-- `Lexer._get_token`: classify one fragment by its leading delimiter
(escaped print first, then print, syntax, comment); anything else is a
text token with the fragment verbatim.  A syntax token's `tag` is
`content.split(' ')[0]`. -/
def getToken (frag : List Char) : Token :=
  if eprintStartD.isPrefixOf frag then
    { ttype := .teprint, tag := none, content := some (stripDelims 3 3 frag) }
  else if printStartD.isPrefixOf frag then
    { ttype := .tprint, tag := none, content := some (stripDelims 2 2 frag) }
  else if syntaxStartD.isPrefixOf frag then
    let content := stripDelims 2 2 frag
    { ttype := .tsyn, tag := some (splitSpaceHead content),
      content := some content }
  else if commentStartD.isPrefixOf frag then
    { ttype := .tcomment, tag := none, content := none }
  else
    { ttype := .ttext, tag := none, content := some (String.mk frag) }

/-- `if token.content:` — Python truthiness of the content field. -/
def contentTruthy (t : Token) : Bool :=
  match t.content with
  | some s => s != ""
  | none => false

/-- `Lexer.__iter__`: split the source, classify every fragment, and
suppress tokens with falsy content (comments and empty bodies). -/
def lex (s : String) : List Token :=
  ((lexScan [] s.data).map getToken).filter contentTruthy

/-! ## The compiler (`templates.py`, `Template._parse`)

Nodes are built interleaved with parsing; the per-class `process_token`
work (which parses tag bodies into expressions and would require modelling
`ast.literal_eval`) is abstracted into a processor parameter `proc`
producing the compiled payload of the node, while the generic structure —
tag registry membership, end-tag dispatch, the open-node and
expected-end-tag stacks, and the `exit_scope` sealing of block-scoped
nodes — is modelled concretely.  `ElifNode` bodies are processed into
condition groups when the token is consumed rather than at `exit_scope`;
both happen inside the same compilation call.  A node is appended to its
parent's child list when it is sealed (the source appends the mutable node
up front; the final trees agree). -/

/-- Compile-time errors (`errors.py`), plus the host `TypeError` raised by
the `nodemap['endtags']` oddity (the registry's end-tag list is itself
stored under a key, and "calling" it raises) and the `KeyError` from an
unregistered token type. -/
inductive TError where
  | nesting (msg : String)
  | invalidTag (msg : String)
  | syntaxError (msg : String)
  | invalidFilter (msg : String)
  | pyTypeError
  | pyKeyError (key : String)
deriving DecidableEq, Repr

/-- Compiled payload of one node, as produced by the per-class
`process_token` step (plus compile-time loader splicing for literal
include/extends targets). -/
inductive NPayload where
  | textP (s : String)
  | printP (escape : Bool) (ps : PrintSpec)
  | emptyP
  | elseP
  | elifP (gs : CondGroups)
  | cycleP (e : Expr)
  | includeStaticP (root : TNode)
  | includeDynP (e : Expr)
  | extendsP (root : TNode)
  | nodeP
  | forP (src : String) (v0 : String) (vs : List String) (e : Expr)
  | ifP (gs : CondGroups)
  | blockP (title : String)
  | spacelessP
  | trimP
  | withP (aliasName : String) (e : Expr)

/-- The tag-registry keys of `nodes.nodemap` after module initialisation,
in registration order (note that the end-tag list itself lives under the
key `"endtags"`). -/
def nodemapKeys : List String :=
  ["endtags", "node", "root", "text", "print", "eprint", "for", "empty",
   "if", "elif", "else", "cycle", "include", "extends", "block",
   "spaceless", "trim", "with"]

/-- `nodes.nodemap['endtags']`, in registration order. -/
def endtagsList : List String :=
  ["endfor", "endif", "endblock", "endspaceless", "endtrim", "endwith"]

/-- The `end_tag` class attribute set by the `@register` decorator. -/
def endTagOf (tag : String) : Option String :=
  if tag = "for" then some "endfor"
  else if tag = "if" then some "endif"
  else if tag = "block" then some "endblock"
  else if tag = "spaceless" then some "endspaceless"
  else if tag = "trim" then some "endtrim"
  else if tag = "with" then some "endwith"
  else none

/-- `Node.split_children(EmptyNode)` restricted to the parts `exit_scope`
uses: children before the first `EmptyNode` delimiter and children after
it (all children and nothing when no delimiter is present). -/
def splitAtEmpty : List TNode → List TNode × List TNode
  | [] => ([], [])
  | .emptyN _ :: ns => ([], ns)
  | n :: ns =>
      let (a, b) := splitAtEmpty ns
      (n :: a, b)

/-- `Node.split_children(ElifNode)`: children before the first `ElifNode`,
the found node's condition groups, and the children after it. -/
def splitAtElif : List TNode → List TNode × Option CondGroups × List TNode
  | [] => ([], none, [])
  | .elifN gs _ :: ns => ([], some gs, ns)
  | n :: ns =>
      let (a, b, c) := splitAtElif ns
      (n :: a, b, c)

/-- `Node.split_children(ElseNode)` restricted to the parts used. -/
def splitAtElse : List TNode → List TNode × List TNode
  | [] => ([], [])
  | .elseN _ :: ns => ([], ns)
  | n :: ns =>
      let (a, b) := splitAtElse ns
      (n :: a, b)

theorem splitAtElifPostLen :
    ∀ ns a gs c, splitAtElif ns = (a, some gs, c) → c.length < ns.length := by
  intro ns
  induction ns with
  | nil => intro a gs c h; simp [splitAtElif] at h
  | cons n rest ih =>
      intro a gs c h
      match n with
      | .elifN gs2 ch =>
          simp [splitAtElif] at h
          simp [h.2.2]
      | .text s ch | .printN e ps ch | .seq ch | .emptyN ch | .elseN ch
      | .forN s v0 vs e fb eb ch | .ifN g tb fb ch | .cycleN i e ch
      | .includeN e ch | .extendsN ch | .blockN i t ch | .spacelessN ch
      | .trimN ch | .withN al e ch =>
          simp only [splitAtElif] at h
          rcases hs : splitAtElif rest with ⟨a2, b2, c2⟩
          rw [hs] at h
          simp at h
          rcases h with ⟨h1, h2, h3⟩
          subst h3
          have h4 : b2 = some gs := h2
          exact Nat.lt_succ_of_lt (ih a2 gs c2 (by rw [hs, h4]))

/-- `IfNode.exit_scope`: recursively restructure elif chains into nested
if-nodes with true/false branches, falling back to an else branch (or an
empty branch) at the end of the chain. -/
def ifSeal (gs : CondGroups) (children : List TNode) : TNode :=
  match hs : splitAtElif children with
  | (ifnodes, some gs2, elifnodes) =>
      .ifN gs (.seq ifnodes) (ifSeal gs2 elifnodes) children
  | (_, none, _) =>
      match splitAtElse children with
      | (ifnodes, elsenodes) => .ifN gs (.seq ifnodes) (.seq elsenodes) children
termination_by children.length
decreasing_by
  exact splitAtElifPostLen _ _ _ _ hs

/-- Node construction and sealing: builds the compiled node for a payload
with its accumulated children, running the class's `exit_scope` for
block-scoped node types (`ForNode.exit_scope` splits on the first
`EmptyNode`, `IfNode.exit_scope` restructures elif/else chains; the other
classes inherit the no-op).  `id` is the node's identity. -/
def sealFrame (p : NPayload) (id : Nat) (children : List TNode) : TNode :=
  match p with
  | .textP s => .text s children
  | .printP esc ps => .printN esc ps children
  | .emptyP => .emptyN children
  | .elifP gs => .elifN gs children
  | .elseP => .elseN children
  | .cycleP e => .cycleN id e children
  | .includeStaticP root => .includeN none (root :: children)
  | .includeDynP e => .includeN (some e) children
  | .extendsP root => .extendsN (root :: children)
  | .nodeP => .seq children
  | .forP src v0 vs e =>
      match splitAtEmpty children with
      | (fornodes, emptynodes) =>
          .forN src v0 vs e (.seq fornodes) (.seq emptynodes) children
  | .ifP gs => ifSeal gs children
  | .blockP title => .blockN id title children
  | .spacelessP => .spacelessN children
  | .trimP => .trimN children
  | .withP a e => .withN a e children

/-- One open node on the compiler's stack: its compiled payload, its
identity, and the children accumulated so far. -/
structure Frame where
  payload : NPayload
  nid : Nat
  children : List TNode

/-- `stack[-1].children.append(node)`. -/
def appendChild (fr : Frame) (n : TNode) : Frame :=
  { fr with children := fr.children ++ [n] }

/-- The abstracted per-class `process_token` step (and compile-time loader
interaction for literal include/extends): from a token to the node's
compiled payload, or a compile-time error. -/
abbrev TagProc := Token → Except TError NPayload

/-- The token loop of `Template._parse`.  `top` is the innermost open
node, `stack` the remaining open nodes (the root at its end), `expecting`
the expected-end-tag stack, `ctr` the next node identity. -/
def parseGo (proc : TagProc) :
    List Token → Frame → List Frame → List String → Nat → Except TError TNode
  | [], _, _, e :: _, _ => .error (.nesting ("expecting [" ++ e ++ "]"))
  | [], top, _, [], _ => .ok (.seq top.children)
  | tok :: rest, top, stack, expecting, ctr =>
      match tok.ttype with
      | .tsyn =>
          let tag := tok.tag.getD ""
          if nodemapKeys.contains tag then
            if tag = "endtags" then .error .pyTypeError
            else
              match proc tok with
              | .error e => .error e
              | .ok payload =>
                  match endTagOf tag with
                  | some et =>
                      parseGo proc rest (Frame.mk payload ctr []) (top :: stack)
                        (et :: expecting) (ctr + 1)
                  | none =>
                      parseGo proc rest
                        (appendChild top (sealFrame payload ctr [])) stack
                        expecting (ctr + 1)
          else if endtagsList.contains tag then
            match expecting with
            | [] => .error (.nesting ("not expecting [" ++ tag ++ "]"))
            | e :: es =>
                if tag = e then
                  match stack with
                  | parent :: fs =>
                      parseGo proc rest
                        (appendChild parent
                          (sealFrame top.payload top.nid top.children)) fs es ctr
                  | [] => .error (.nesting "unbalanced parser stack")
                else
                  .error (.nesting ("expecting [" ++ e ++ "], found [" ++ tag ++ "]"))
          else .error (.invalidTag ("[" ++ tag ++ "] is not a recognised template tag"))
      | .ttext =>
          parseGo proc rest
            (appendChild top (.text (tok.content.getD "") [])) stack expecting ctr
      | .tprint | .teprint =>
          match proc tok with
          | .error e => .error e
          | .ok payload =>
              parseGo proc rest (appendChild top (sealFrame payload ctr [])) stack
                expecting (ctr + 1)
      | .tcomment => .error (.pyKeyError "comment")

/-- `Template._parse`: run the token loop from a fresh root node. -/
def parseTokens (proc : TagProc) (tokens : List Token) : Except TError TNode :=
  parseGo proc tokens (Frame.mk .nodeP 0 []) [] [] 1

/-! ## The public render pipeline (`Template.__init__` / `Template.render`) -/

/-- The engine-builtins scope placed at the bottom of every context stack
by `Context.__init__`. -/
def builtinsScope : Scope :=
  [("context", vcontext), ("defined", vfunc .definedF)]

/-- `config.builtins`: the user-configurable global builtins. -/
def configBuiltins : Scope :=
  [("delimiters", vdict
      [("print_start", vstr "\x7b\x7b"), ("print_end", vstr "\x7d\x7d"),
       ("eprint_start", vstr "\x7b\x7b\x7b"), ("eprint_end", vstr "\x7d\x7d\x7d"),
       ("syntax_start", vstr "\x7b%"), ("syntax_end", vstr "%\x7d"),
       ("comment_start", vstr "\x7b#"), ("comment_end", vstr "#\x7d")]),
   ("now", vfunc .nowF), ("range", vfunc .rangeF)]

/-- `Context.__init__`: builtins, global builtins, then the caller data;
empty stash. -/
def mkCtx (data : Scope) : Ctx :=
  { stack := [builtinsScope, configBuiltins, data], stash := [] }

/-- The render-immutable surroundings of one template render: its block
registry plus the external loader and clock collaborators. -/
def mkEnv (reg : Registry) (loader : Value → Option TNode) (clock : Value) : Env :=
  { registry := reg, loader := loader, clock := clock }

/-- `Template.render(data)` on an already-compiled tree: construct a fresh
context (with the registry assembled by `Template.__init__`) and render
the root. -/
def renderTemplate (fuel : Nat) (root : TNode) (data : Scope)
    (loader : Value → Option TNode) (clock : Value) : Except RErr String :=
  (renderNode fuel (mkEnv (registerBlocks root []) loader clock) root (mkCtx data)).1

/-- Full pipeline: lex, compile, then render with the given data. -/
def templateRender (proc : TagProc) (fuel : Nat) (s : String) (data : Scope)
    (loader : Value → Option TNode) (clock : Value) :
    Except TError (Except RErr String) :=
  match parseTokens proc (lex s) with
  | .error e => .error e
  | .ok root => .ok (renderTemplate fuel root data loader clock)

/-! ## Shared concrete instances for the claim witnesses -/

/-- A loader resolving nothing (`config.loader` is `None` in this
repository's `config.py`; no template loads). -/
def emptyLoader : Value → Option TNode := fun _ => none

/-- A trivial tag processor (every tag body compiles to a generic node);
used to instantiate processor-parametric statements. -/
def trivProc : TagProc := fun _ => .ok .nodeP

/-- A processor compiling exactly the tags of the spec's for/empty
examples: print bodies become single-variable references and `for` tags
the loop over `items` with variable `x` (the compiled forms of
`Expression('x')`, `Expression('items')` and `ForNode.process_token` on
`for x in items`). -/
def forDemoProc : TagProc := fun tok =>
  match tok.ttype with
  | .tprint =>
      match tok.content with
      | some c => .ok (.printP false (.orChain (.varE c c [] []) []))
      | none => .error .pyTypeError
  | .teprint =>
      match tok.content with
      | some c => .ok (.printP true (.orChain (.varE c c [] []) []))
      | none => .error .pyTypeError
  | .tsyn =>
      match tok.tag with
      | some "for" =>
          .ok (.forP (tok.content.getD "") "x" [] (.varE "items" "items" [] []))
      | some "empty" => .ok .emptyP
      | _ => .error .pyTypeError
  | _ => .error .pyTypeError

/-! ## C6 -/

/-- C6: the `Undefined` sentinel returned by failed variable resolution
stringifies to the empty string, is falsy, has length 0, contains no key,
iterates to no elements, and compares unequal to every value — including
another `Undefined` and itself (`pyEq vundef vundef` covers both, object
identity being immaterial to the constantly-false `__eq__`). -/
theorem undefined_sentinel_behaviour :
    pyStr vundef = "" ∧ pyTruth vundef = false ∧ pyLen vundef = some 0 ∧
    (∀ k : Value, pyContains vundef k = some false) ∧
    iterElems vundef = some [] ∧
    (∀ v : Value, pyEq vundef v = false ∧ pyEq v vundef = false ∧
      pyNe vundef v = true ∧ pyNe v vundef = true) := by
  refine ⟨rfl, rfl, rfl, fun k => rfl, rfl, fun v => ⟨?_, ?_, ?_, ?_⟩⟩
  · cases v <;> rfl
  · cases v <;> rfl
  · cases v <;> rfl
  · cases v <;> rfl

/-! ## C5 -/

/-- C5: `Context.resolve` splits on `.`; each segment first attempts
mapping-style lookup (which on the context object itself scans the scope
stack top-down), then attribute-style lookup; when both fail the loop
short-circuits to the `Undefined` sentinel with every remaining segment
ignored, and no exception escapes (resolution is total by construction);
`defined(path)` holds exactly when `resolve(path)` is not `Undefined`. -/
theorem resolve_lookup_order_and_defined :
    (∀ (p : String) (ctx : Ctx),
        resolve ctx p
          = resolveVal ctx vcontext ((splitOnChar '.' p.data).map String.mk)) ∧
    (∀ (ctx : Ctx) (t : String), objGetItem ctx vcontext t = ctxGetItem ctx t) ∧
    (∀ (ctx : Ctx) (obj : Value) (t : String) (ts : List String) (o : Value),
        objGetItem ctx obj t = some o →
        resolveVal ctx obj (t :: ts) = resolveVal ctx o ts) ∧
    (∀ (ctx : Ctx) (obj : Value) (t : String) (ts : List String) (o : Value),
        objGetItem ctx obj t = none → objGetAttr obj t = some o →
        resolveVal ctx obj (t :: ts) = resolveVal ctx o ts) ∧
    (∀ (ctx : Ctx) (obj : Value) (t : String) (ts : List String),
        objGetItem ctx obj t = none → objGetAttr obj t = none →
        resolveVal ctx obj (t :: ts) = vundef) ∧
    (∀ (ctx : Ctx) (p : String),
        ctxDefined ctx p = true ↔ resolve ctx p ≠ vundef) := by
  refine ⟨fun p ctx => rfl, fun ctx t => rfl, ?_, ?_, ?_, ?_⟩
  · intro ctx obj t ts o h
    simp [resolveVal, h]
  · intro ctx obj t ts o h1 h2
    simp [resolveVal, h1, h2]
  · intro ctx obj t ts h1 h2
    simp [resolveVal, h1, h2]
  · intro ctx p
    unfold ctxDefined
    cases h : resolve ctx p <;> simp [isUndef]

/-- Witness for C5 at concrete inputs: a value exposing both the mapping
protocol and attributes resolves through the mapping first; attributes
are the fallback; double failure short-circuits past the remaining
segments. -/
theorem resolve_lookup_order_witness :
    objGetItem (mkCtx []) (vobj [("b", vint 1)] [("b", vint 2), ("c", vint 3)]) "b"
      = some (vint 1) ∧
    resolveVal (mkCtx []) (vobj [("b", vint 1)] [("b", vint 2), ("c", vint 3)])
      ["b"] = resolveVal (mkCtx []) (vint 1) [] ∧
    objGetItem (mkCtx []) (vobj [("b", vint 1)] [("b", vint 2), ("c", vint 3)]) "c"
      = none ∧
    objGetAttr (vobj [("b", vint 1)] [("b", vint 2), ("c", vint 3)]) "c"
      = some (vint 3) ∧
    resolveVal (mkCtx []) (vobj [("b", vint 1)] [("b", vint 2), ("c", vint 3)])
      ["c"] = resolveVal (mkCtx []) (vint 3) [] ∧
    objGetItem (mkCtx []) (vint 1) "x" = none ∧
    objGetAttr (vint 1) "x" = none ∧
    resolveVal (mkCtx []) (vint 1) ["x", "y", "z"] = vundef ∧
    (ctxDefined (mkCtx []) "range" = true ↔ resolve (mkCtx []) "range" ≠ vundef) := by
  refine ⟨rfl, ?_, rfl, rfl, ?_, rfl, rfl, ?_, ?_⟩
  · exact resolve_lookup_order_and_defined.2.2.1 (mkCtx [])
      (vobj [("b", vint 1)] [("b", vint 2), ("c", vint 3)]) "b" [] (vint 1) rfl
  · exact resolve_lookup_order_and_defined.2.2.2.1 (mkCtx [])
      (vobj [("b", vint 1)] [("b", vint 2), ("c", vint 3)]) "c" [] (vint 3) rfl rfl
  · exact resolve_lookup_order_and_defined.2.2.2.2.1 (mkCtx [])
      (vint 1) "x" ["y", "z"] rfl rfl
  · exact resolve_lookup_order_and_defined.2.2.2.2.2 (mkCtx []) "range"

/-! ## C9 -/

/-- The claim's notion, following the spec's words: the first
whitespace-delimited word of a (trimmed) string — everything up to the
first whitespace character of any kind. -/
def firstWhitespaceWord (s : String) : String :=
  String.mk ((s.data.dropWhile isPySpace).takeWhile (fun c => !isPySpace c))

/-- C9 counterexample: the lexer computes a syntax token's tag with
`content.split(' ')[0]`, which splits on the space character only; a tag
body whose first word is separated by a tab yields the whole chunk up to
the first space, not the first whitespace-delimited word. -/
theorem syntax_tag_tab_counterexample :
    lex "\x7b%for\tx%\x7d" =
      [{ ttype := .tsyn, tag := some "for\tx", content := some "for\tx" }] ∧
    firstWhitespaceWord "for\tx" = "for" ∧
    some "for\tx" ≠ some "for" := by
  refine ⟨by decide, by decide, by decide⟩

/-- C9 amended: every syntax token produced by the lexer carries as `tag`
the first space-delimited chunk of its trimmed content
(`content.split(' ')[0]`); tabs and newlines do not delimit the tag. -/
theorem syntax_token_tag_first_space_chunk :
    ∀ (s : String) (tok : Token), tok ∈ lex s → tok.ttype = .tsyn →
      ∃ c, tok.content = some c ∧ tok.tag = some (splitSpaceHead c) := by
  intro s tok hmem htype
  unfold lex at hmem
  rcases List.mem_filter.mp hmem with ⟨hmap, _⟩
  rcases List.mem_map.mp hmap with ⟨frag, _, rfl⟩
  revert htype
  unfold getToken
  split_ifs with h1 h2 h3 h4 <;> intro htype
  · exact absurd htype (by simp)
  · exact absurd htype (by simp)
  · exact ⟨stripDelims 2 2 frag, rfl, rfl⟩
  · exact absurd htype (by simp)
  · exact absurd htype (by simp)

/-- Witness for the amended C9 on a concrete template. -/
theorem syntax_token_tag_first_space_chunk_witness :
    ({ ttype := .tsyn, tag := some "for", content := some "for x in items" } : Token)
      ∈ lex "\x7b% for x in items %\x7d" ∧
    (∃ c, ({ ttype := .tsyn, tag := some "for",
             content := some "for x in items" } : Token).content = some c ∧
      ({ ttype := .tsyn, tag := some "for",
         content := some "for x in items" } : Token).tag
        = some (splitSpaceHead c)) :=
  ⟨by decide,
   syntax_token_tag_first_space_chunk "\x7b% for x in items %\x7d" _ (by decide) rfl⟩

/-! ## C4 -/

/-- C4: for one compiled template containing a cycle tag, any two renders
performed with two distinct fresh contexts each start the cycle at the
first value of its sequence: `Template.render` constructs a context whose
stash is empty, the cycle position lives in that stash keyed by the node's
identity (as the final conjunct exhibits), and the render output is a pure
function of the render's own context, so neither render's position can
influence the other. -/
theorem cycle_fresh_render_starts_first :
    ∀ (id : Nat) (x : Value) (xs : List Value) (d1 d2 : Scope)
      (loader : Value → Option TNode) (clock : Value) (fuel : Nat),
      renderTemplate (fuel + 4) (.seq [.cycleN id (.lit (vlist (x :: xs))) []])
        d1 loader clock = .ok (pyStr x) ∧
      renderTemplate (fuel + 4) (.seq [.cycleN id (.lit (vlist (x :: xs))) []])
        d2 loader clock = .ok (pyStr x) ∧
      (∀ d : Scope, (mkCtx d).stash = []) ∧
      ((renderNode (fuel + 4) (mkEnv [] loader clock)
          (.seq [.cycleN id (.lit (vlist (x :: xs))) []]) (mkCtx d1)).2).stash
        = [(id, (x :: xs, 1))] := by
  intro id x xs d1 d2 loader clock fuel
  refine ⟨?_, ?_, fun d => rfl, ?_⟩ <;>
    simp [renderTemplate, registerBlocks, registerBlocksList, mkEnv,
      renderNode, renderList, evalExpr, nlookup, iterElems, mkCtx, nstore]

/-! ## C7 -/

/-- C7: an exception raised while evaluating a single if/elif condition is
not propagated — the pre-negation result is taken to be `false` (so a
`not`-prefixed condition yields `true`) and the surrounding `IfNode.render`
always proceeds into one of its branches, condition evaluation being total
by construction; by contrast the other render-time evaluation failures
(print expressions, the for-loop iterable, the with-binding) abort the
node's render and propagate. -/
theorem if_condition_exception_swallowed :
    (∀ (fuel : Nat) (env : Env) (c : Condition) (ctx : Ctx) (er : RErr) (c1 : Ctx),
        evalCondRaw fuel env c ctx = (.error er, c1) →
        evalCondition (fuel + 1) env c ctx = (c.negated, c1)) ∧
    (∀ (fuel : Nat) (env : Env) (g : CondGroup) (gs : List CondGroup)
       (tb fb : TNode) (ch : List TNode) (ctx : Ctx),
        renderNode (fuel + 1) env (.ifN (g, gs) tb fb ch) ctx =
          (match evalGroups fuel env g gs ctx with
           | (b, c1) => renderNode fuel env (if b then tb else fb) c1)) ∧
    (∀ (fuel : Nat) (env : Env) (esc : Bool) (ps : PrintSpec) (ch : List TNode)
       (ctx : Ctx) (er : RErr) (c1 : Ctx),
        evalPrint fuel env ps ctx = (.error er, c1) →
        renderNode (fuel + 1) env (.printN esc ps ch) ctx = (.error er, c1)) ∧
    (∀ (fuel : Nat) (env : Env) (src v0 : String) (vs : List String) (e : Expr)
       (fb eb : TNode) (ch : List TNode) (ctx : Ctx) (er : RErr) (c1 : Ctx),
        evalExpr fuel env e ctx = (.error er, c1) →
        renderNode (fuel + 1) env (.forN src v0 vs e fb eb ch) ctx = (.error er, c1)) ∧
    (∀ (fuel : Nat) (env : Env) (a : String) (e : Expr) (ch : List TNode)
       (ctx : Ctx) (er : RErr) (c2 : Ctx),
        evalExpr fuel env e (ctxPush ctx []) = (.error er, c2) →
        renderNode (fuel + 1) env (.withN a e ch) ctx = (.error er, c2)) := by
  refine ⟨?_, ?_, ?_, ?_, ?_⟩
  · intro fuel env c ctx er c1 h
    simp [evalCondition, h]
  · intro fuel env g gs tb fb ch ctx
    rfl
  · intro fuel env esc ps ch ctx er c1 h
    simp [renderNode, h]
  · intro fuel env src v0 vs e fb eb ch ctx er c1 h
    simp [renderNode, h]
  · intro fuel env a e ch ctx er c2 h
    simp [renderNode, h]

/-- Witness for C7: a condition whose expression invokes `defined` with the
wrong arity raises a `CallError`; the condition evaluates to `false` (and
to `true` when negated), and the if-node renders its false branch. -/
theorem if_condition_exception_swallowed_witness :
    evalCondRaw 3 (mkEnv [] emptyLoader vnone)
      { negated := false, lhs := .varE "defined('a','b')" "defined"
          [vstr "a", vstr "b"] [], cmp := none } (mkCtx [])
      = (.error (.callError "error calling [defined]"), mkCtx []) ∧
    evalCondition 4 (mkEnv [] emptyLoader vnone)
      { negated := false, lhs := .varE "defined('a','b')" "defined"
          [vstr "a", vstr "b"] [], cmp := none } (mkCtx [])
      = (false, mkCtx []) :=
  ⟨rfl,
   if_condition_exception_swallowed.1 3 (mkEnv [] emptyLoader vnone)
     { negated := false, lhs := .varE "defined('a','b')" "defined"
         [vstr "a", vstr "b"] [], cmp := none } (mkCtx [])
     (.callError "error calling [defined]") (mkCtx []) rfl⟩

/-! ## C2 -/

/-- C2: `Template._parse`'s end-tag handling — a syntax token carrying a
registered end-tag raises a `NestingError` "not expecting" when the
expected-end-tag stack is empty; raises a `NestingError` naming both the
expected and the found tag on a mismatch; on a match seals the open node
(`exit_scope` via `sealFrame`), appends it to its parent, pops both the
open-node and expected-end-tag stacks, and contributes no node of its own;
and an exhausted token stream with a non-empty expected-end-tag stack
raises a `NestingError`.  Every error case yields an `Except.error`, so no
template is produced. -/
theorem parse_endtag_discipline :
    (∀ (proc : TagProc) (tag : String) (content : Option String)
       (rest : List Token) (top : Frame) (stack : List Frame) (ctr : Nat),
        tag ∉ nodemapKeys → tag ∈ endtagsList →
        parseGo proc
          ({ ttype := .tsyn, tag := some tag, content := content } :: rest)
          top stack [] ctr
          = .error (.nesting ("not expecting [" ++ tag ++ "]"))) ∧
    (∀ (proc : TagProc) (tag : String) (content : Option String)
       (rest : List Token) (top : Frame) (stack : List Frame)
       (e : String) (es : List String) (ctr : Nat),
        tag ∉ nodemapKeys → tag ∈ endtagsList →
        tag ≠ e →
        parseGo proc
          ({ ttype := .tsyn, tag := some tag, content := content } :: rest)
          top stack (e :: es) ctr
          = .error (.nesting ("expecting [" ++ e ++ "], found [" ++ tag ++ "]"))) ∧
    (∀ (proc : TagProc) (tag : String) (content : Option String)
       (rest : List Token) (top parent : Frame) (fs : List Frame)
       (es : List String) (ctr : Nat),
        tag ∉ nodemapKeys → tag ∈ endtagsList →
        parseGo proc
          ({ ttype := .tsyn, tag := some tag, content := content } :: rest)
          top (parent :: fs) (tag :: es) ctr
          = parseGo proc rest
              (appendChild parent (sealFrame top.payload top.nid top.children))
              fs es ctr) ∧
    (∀ (proc : TagProc) (top : Frame) (stack : List Frame)
       (e : String) (es : List String) (ctr : Nat),
        parseGo proc [] top stack (e :: es) ctr
          = .error (.nesting ("expecting [" ++ e ++ "]"))) := by
  refine ⟨?_, ?_, ?_, ?_⟩
  · intro proc tag content rest top stack ctr h1 h2
    simp [parseGo, h1, h2]
  · intro proc tag content rest top stack e es ctr h1 h2 h3
    simp [parseGo, h1, h2, h3]
  · intro proc tag content rest top parent fs es ctr h1 h2
    simp [parseGo, h1, h2]
  · intro proc top stack e es ctr
    rfl

/-- Witness for C2 on concrete inputs: an `endfor` with nothing expected,
an `endfor` against an expected `endif`, a matching `endfor` that seals
and pops, and an unterminated stream. -/
theorem parse_endtag_discipline_witness :
    "endfor" ∉ nodemapKeys ∧
    "endfor" ∈ endtagsList ∧
    ("endfor" : String) ≠ "endif" ∧
    parseGo trivProc [{ ttype := .tsyn, tag := some "endfor", content := some "endfor" }]
      (Frame.mk .nodeP 0 []) [] [] 1
      = .error (.nesting "not expecting [endfor]") ∧
    parseGo trivProc [{ ttype := .tsyn, tag := some "endfor", content := some "endfor" }]
      (Frame.mk .nodeP 1 []) [Frame.mk .nodeP 0 []] ["endif"] 2
      = .error (.nesting "expecting [endif], found [endfor]") ∧
    parseGo trivProc [{ ttype := .tsyn, tag := some "endfor", content := some "endfor" }]
      (Frame.mk (.forP "for x in items" "x" [] (.lit vnone)) 1 [.text "a" []])
      [Frame.mk .nodeP 0 []] ["endfor"] 2
      = parseGo trivProc []
          (appendChild (Frame.mk .nodeP 0 [])
            (sealFrame (.forP "for x in items" "x" [] (.lit vnone)) 1 [.text "a" []]))
          [] [] 2 ∧
    parseGo trivProc [] (Frame.mk .nodeP 0 []) [] ["endfor"] 1
      = .error (.nesting "expecting [endfor]") := by
  refine ⟨by decide, by decide, by decide, ?_, ?_, ?_, ?_⟩
  · exact parse_endtag_discipline.1 trivProc "endfor" (some "endfor") []
      (Frame.mk .nodeP 0 []) [] 1 (by decide) (by decide)
  · exact parse_endtag_discipline.2.1 trivProc "endfor" (some "endfor") []
      (Frame.mk .nodeP 1 []) [Frame.mk .nodeP 0 []] "endif" [] 2 (by decide)
      (by decide) (by decide)
  · exact parse_endtag_discipline.2.2.1 trivProc "endfor" (some "endfor") []
      (Frame.mk (.forP "for x in items" "x" [] (.lit vnone)) 1 [.text "a" []])
      (Frame.mk .nodeP 0 []) [] [] 2 (by decide) (by decide)
  · exact parse_endtag_discipline.2.2.2 trivProc (Frame.mk .nodeP 0 []) []
      "endfor" [] 1

/-! ## C1 -/

/-- C1: `ForNode.render` — when the loop expression evaluates to a truthy
iterable the render is the iteration from index 0 over its items, where
each iteration pushes a fresh scope, binds the loop variable (or the
unpacked variables), injects the `loop` record, renders the for-branch,
pops the scope, and prepends its output to the remaining iterations'
output (concatenation in item order, empty iteration list rendering
nothing more); when the value is falsy or not iterable the empty branch is
rendered (the compiler makes it an empty container when no `{% empty %}`
was present).  The closing conjuncts check the spec's concrete examples
end to end: `{% for x in items %}{{x}}{% endfor %}` renders `"123"` for
`items = [1, 2, 3]`, and with an `{% empty %}no items` clause and
`items = []` renders `"no items"`. -/
theorem for_empty_render_semantics :
    (∀ (fuel : Nat) (env : Env) (src v0 : String) (vs : List String) (e : Expr)
       (fb eb : TNode) (ch : List TNode) (ctx : Ctx) (v : Value) (c1 : Ctx),
        evalExpr fuel env e ctx = (.ok v, c1) →
        (pyTruth v = false ∨ iterElems v = none) →
        renderNode (fuel + 1) env (.forN src v0 vs e fb eb ch) ctx
          = renderNode fuel env eb c1) ∧
    (∀ (fuel : Nat) (env : Env) (src v0 : String) (vs : List String) (e : Expr)
       (fb eb : TNode) (ch : List TNode) (ctx : Ctx) (v : Value) (c1 : Ctx)
       (items : List Value),
        evalExpr fuel env e ctx = (.ok v, c1) →
        iterElems v = some items → pyTruth v = true →
        renderNode (fuel + 1) env (.forN src v0 vs e fb eb ch) ctx
          = forIter fuel env src v0 vs fb items 0 items.length c1) ∧
    (∀ (fuel : Nat) (env : Env) (src v0 : String) (vs : List String)
       (fb : TNode) (idx len : Nat) (ctx : Ctx),
        forIter (fuel + 1) env src v0 vs fb [] idx len ctx = (.ok "", ctx)) ∧
    (∀ (fuel : Nat) (env : Env) (src v0 : String) (fb : TNode) (item : Value)
       (rest : List Value) (idx len : Nat) (ctx : Ctx) (s : String) (c4 : Ctx)
       (t : String) (c6 : Ctx),
        renderNode fuel env fb
          (ctxSet (ctxSet (ctxPush ctx []) v0 item) "loop"
            (loopRecord idx len
              (ctxGet (ctxSet (ctxPush ctx []) v0 item) "loop" vnone)))
          = (.ok s, c4) →
        forIter fuel env src v0 [] fb rest (idx + 1) len (ctxPop c4) = (.ok t, c6) →
        forIter (fuel + 1) env src v0 [] fb (item :: rest) idx len ctx
          = (.ok (s ++ t), c6)) ∧
    (∀ (fuel : Nat) (env : Env) (src v0 v1 : String) (vrest : List String)
       (fb : TNode) (item : Value) (parts : List Value) (rest : List Value)
       (idx len : Nat) (ctx : Ctx) (s : String) (c4 : Ctx) (t : String) (c6 : Ctx),
        iterElems item = some parts →
        renderNode fuel env fb
          (ctxSet (ctxUpdate (ctxPush ctx []) ((v0 :: v1 :: vrest).zip parts)) "loop"
            (loopRecord idx len
              (ctxGet (ctxUpdate (ctxPush ctx []) ((v0 :: v1 :: vrest).zip parts))
                "loop" vnone)))
          = (.ok s, c4) →
        forIter fuel env src v0 (v1 :: vrest) fb rest (idx + 1) len (ctxPop c4)
          = (.ok t, c6) →
        forIter (fuel + 1) env src v0 (v1 :: vrest) fb (item :: rest) idx len ctx
          = (.ok (s ++ t), c6)) ∧
    templateRender forDemoProc 50
      "\x7b% for x in items %\x7d\x7b\x7bx\x7d\x7d\x7b% endfor %\x7d"
      [("items", vlist [vint 1, vint 2, vint 3])] emptyLoader vnone
      = .ok (.ok "123") ∧
    templateRender forDemoProc 50
      "\x7b% for x in items %\x7d\x7b\x7bx\x7d\x7d\x7b% empty %\x7dno items\x7b% endfor %\x7d"
      [("items", vlist [])] emptyLoader vnone
      = .ok (.ok "no items") := by
  refine ⟨?_, ?_, ?_, ?_, ?_, rfl, rfl⟩
  · intro fuel env src v0 vs e fb eb ch ctx v c1 h1 h2
    rcases h2 with h2 | h2
    · cases h3 : iterElems v <;> simp [renderNode, h1, h2, h3]
    · simp [renderNode, h1, h2]
  · intro fuel env src v0 vs e fb eb ch ctx v c1 items h1 h2 h3
    simp [renderNode, h1, h2, h3]
  · intro fuel env src v0 vs fb idx len ctx
    rfl
  · intro fuel env src v0 fb item rest idx len ctx s c4 t c6 h1 h2
    simp [forIter, h1, h2]
  · intro fuel env src v0 v1 vrest fb item parts rest idx len ctx s c4 t c6 h1 h2 h3
    simp [forIter, h1, h2, h3]

/-- Witness for C1: the step equations applied at concrete inputs — a
falsy iterable selects the empty branch, a truthy one starts the
iteration, and one concrete iteration binds, renders, pops, and
concatenates. -/
theorem for_empty_render_semantics_witness :
    evalExpr 1 (mkEnv [] emptyLoader vnone) (.lit (vlist [])) (mkCtx [])
      = (.ok (vlist []), mkCtx []) ∧
    pyTruth (vlist []) = false ∧
    renderNode 2 (mkEnv [] emptyLoader vnone)
      (.forN "for x in items" "x" [] (.lit (vlist [])) (.seq [])
        (.text "no items" []) []) (mkCtx [])
      = renderNode 1 (mkEnv [] emptyLoader vnone) (.text "no items" []) (mkCtx []) ∧
    evalExpr 1 (mkEnv [] emptyLoader vnone) (.lit (vlist [vint 7])) (mkCtx [])
      = (.ok (vlist [vint 7]), mkCtx []) ∧
    iterElems (vlist [vint 7]) = some [vint 7] ∧
    pyTruth (vlist [vint 7]) = true ∧
    renderNode 2 (mkEnv [] emptyLoader vnone)
      (.forN "for x in items" "x" [] (.lit (vlist [vint 7])) (.text "a" [])
        (.seq []) []) (mkCtx [])
      = forIter 1 (mkEnv [] emptyLoader vnone) "for x in items" "x" []
          (.text "a" []) [vint 7] 0 1 (mkCtx []) ∧
    renderNode 1 (mkEnv [] emptyLoader vnone) (.text "a" [])
      (ctxSet (ctxSet (ctxPush (mkCtx []) []) "x" (vint 7)) "loop"
        (loopRecord 0 1
          (ctxGet (ctxSet (ctxPush (mkCtx []) []) "x" (vint 7)) "loop" vnone)))
      = (.ok "a",
         ctxSet (ctxSet (ctxPush (mkCtx []) []) "x" (vint 7)) "loop"
           (loopRecord 0 1
             (ctxGet (ctxSet (ctxPush (mkCtx []) []) "x" (vint 7)) "loop" vnone))) ∧
    forIter 2 (mkEnv [] emptyLoader vnone) "for x in items" "x" []
        (.text "a" []) [vint 7] 0 1 (mkCtx [])
      = (.ok ("a" ++ ""),
         ctxPop
           (ctxSet (ctxSet (ctxPush (mkCtx []) []) "x" (vint 7)) "loop"
             (loopRecord 0 1
               (ctxGet (ctxSet (ctxPush (mkCtx []) []) "x" (vint 7)) "loop" vnone)))) := by
  refine ⟨rfl, rfl, ?_, rfl, rfl, rfl, ?_, rfl, ?_⟩
  · exact for_empty_render_semantics.1 1 (mkEnv [] emptyLoader vnone)
      "for x in items" "x" [] (.lit (vlist [])) (.seq []) (.text "no items" []) []
      (mkCtx []) (vlist []) (mkCtx []) rfl (Or.inl rfl)
  · exact for_empty_render_semantics.2.1 1 (mkEnv [] emptyLoader vnone)
      "for x in items" "x" [] (.lit (vlist [vint 7])) (.text "a" []) (.seq []) []
      (mkCtx []) (vlist [vint 7]) (mkCtx []) [vint 7] rfl rfl rfl
  · exact for_empty_render_semantics.2.2.2.1 1 (mkEnv [] emptyLoader vnone)
      "for x in items" "x" (.text "a" []) (vint 7) [] 0 1 (mkCtx []) "a" _ "" _
      rfl rfl

/-! ## C3 -/

/-- C3: `BlockNode.render` consults the template's registry list for its
title; only the node that is the first element of that list produces
output (any other node with that title renders the empty string with the
context untouched), and what it renders is the last (most-derived) node's
children, inside a freshly pushed scope binding `super`, popped
afterwards (`render_block`).  The final conjunct checks the inheritance
consequence end to end: a child tree extending a base renders the child's
block content `"Child"`, not the base's, for the overridden title. -/
theorem block_first_renders_most_derived :
    (∀ (fuel : Nat) (env : Env) (id : Nat) (title : String) (ch : List TNode)
       (ctx : Ctx) (fid : Nat) (fch : List TNode) (rest : List (Nat × List TNode)),
        alookup env.registry title = some ((fid, fch) :: rest) → fid ≠ id →
        renderNode (fuel + 1) env (.blockN id title ch) ctx = (.ok "", ctx)) ∧
    (∀ (fuel : Nat) (env : Env) (id : Nat) (title : String) (ch : List TNode)
       (ctx : Ctx) (fch : List TNode) (rest : List (Nat × List TNode)),
        alookup env.registry title = some ((id, fch) :: rest) →
        renderNode (fuel + 1) env (.blockN id title ch) ctx
          = renderBlockList fuel env title ((id, fch) :: rest) ctx) ∧
    (∀ (fuel : Nat) (env : Env) (title : String) (e : Nat × List TNode)
       (es : List (Nat × List TNode)) (ctx : Ctx) (out : String) (c2 : Ctx),
        renderList fuel env ((e :: es).getLastD (0, [])).2
          (ctxPush ctx
            [("super", vfunc (.superF title (((e :: es).dropLast).map Prod.fst)))])
          = (.ok out, c2) →
        renderBlockList (fuel + 1) env title (e :: es) ctx = (.ok out, ctxPop c2)) ∧
    renderTemplate 20
      (.seq [.extendsN [.seq [.blockN 1 "title" [.text "Base" []]]],
             .blockN 2 "title" [.text "Child" []]])
      [] emptyLoader vnone = .ok "Child" := by
  refine ⟨?_, ?_, ?_, rfl⟩
  · intro fuel env id title ch ctx fid fch rest h1 h2
    simp [renderNode, h1, h2]
  · intro fuel env id title ch ctx fch rest h1
    simp [renderNode, h1]
  · intro fuel env title e es ctx out c2 h
    show ((match renderList fuel env ((e :: es).getLastD (0, [])).2
        (ctxPush ctx
          [("super", vfunc (.superF title (((e :: es).dropLast).map Prod.fst)))]) with
      | (Except.ok out, c2) => (Except.ok out, ctxPop c2)
      | (Except.error er, c2) => (Except.error er, c2)) :
        Except RErr String × Ctx) = (Except.ok out, ctxPop c2)
    rw [h]

/-- Witness for C3 on a concrete registry with two blocks titled
`"title"`: the second block renders empty, the first renders the block
list, and the block list renders the last node's children `"Child"` in a
pushed-then-popped `super` scope. -/
theorem block_first_renders_most_derived_witness :
    alookup (mkEnv [("title", [(1, [.text "Base" []]), (2, [.text "Child" []])])]
        emptyLoader vnone).registry "title"
      = some [(1, [.text "Base" []]), (2, [.text "Child" []])] ∧
    (1 : Nat) ≠ 2 ∧
    renderNode 6 (mkEnv [("title", [(1, [.text "Base" []]), (2, [.text "Child" []])])]
        emptyLoader vnone) (.blockN 2 "title" [.text "Child" []]) (mkCtx [])
      = (.ok "", mkCtx []) ∧
    renderNode 6 (mkEnv [("title", [(1, [.text "Base" []]), (2, [.text "Child" []])])]
        emptyLoader vnone) (.blockN 1 "title" [.text "Base" []]) (mkCtx [])
      = renderBlockList 5 (mkEnv [("title", [(1, [.text "Base" []]), (2, [.text "Child" []])])]
          emptyLoader vnone) "title" [(1, [.text "Base" []]), (2, [.text "Child" []])]
          (mkCtx []) ∧
    renderBlockList 5 (mkEnv [("title", [(1, [.text "Base" []]), (2, [.text "Child" []])])]
        emptyLoader vnone) "title" [(1, [.text "Base" []]), (2, [.text "Child" []])]
        (mkCtx [])
      = (.ok "Child",
         ctxPop (ctxPush (mkCtx []) [("super", vfunc (.superF "title" [1]))])) := by
  refine ⟨rfl, by decide, ?_, ?_, ?_⟩
  · exact block_first_renders_most_derived.1 5
      (mkEnv [("title", [(1, [.text "Base" []]), (2, [.text "Child" []])])]
        emptyLoader vnone) 2 "title" [.text "Child" []] (mkCtx []) 1
      [.text "Base" []] [(2, [.text "Child" []])] rfl (by decide)
  · exact block_first_renders_most_derived.2.1 5
      (mkEnv [("title", [(1, [.text "Base" []]), (2, [.text "Child" []])])]
        emptyLoader vnone) 1 "title" [.text "Base" []] (mkCtx [])
      [.text "Base" []] [(2, [.text "Child" []])] rfl
  · have h := block_first_renders_most_derived.2.2.1 4
      (mkEnv [("title", [(1, [.text "Base" []]), (2, [.text "Child" []])])]
        emptyLoader vnone) "title" (1, [.text "Base" []]) [(2, [.text "Child" []])]
      (mkCtx []) "Child"
      (ctxPush (mkCtx []) [("super", vfunc (.superF "title" [1]))]) rfl
    simpa using h

/-! ## C8 -/

/-- Whether the splitting regex matches anywhere in the input (a complete
delimiter pair is present); the claim's "no tags" hypothesis is this
being false. -/
def hasDelimMatch : List Char → Bool
  | [] => false
  | c :: cs => (matchAt (c :: cs)).isSome || hasDelimMatch cs

/-- Whether the text begins with one of the four start delimiters (the
situation in which `Lexer._get_token` classifies an unterminated fragment
by its prefix instead of as text). -/
def startsWithDelim (cs : List Char) : Bool :=
  eprintStartD.isPrefixOf cs || printStartD.isPrefixOf cs ||
    syntaxStartD.isPrefixOf cs || commentStartD.isPrefixOf cs

theorem lexScanF_noMatch :
    ∀ (f : Nat) (pending cs : List Char), hasDelimMatch cs = false →
      lexScanF f pending cs
        = if (pending.reverse ++ cs).isEmpty then [] else [pending.reverse ++ cs] := by
  intro f
  induction f with
  | zero => intro pending cs _; rfl
  | succ f ih =>
      intro pending cs h
      match cs with
      | [] =>
          show (if pending.isEmpty then [] else [pending.reverse]) = _
          rcases pending with _ | ⟨p, ps⟩
          · rfl
          · simp
      | c :: rest =>
          have h2 : matchAt (c :: rest) = none := by
            cases hm : matchAt (c :: rest) with
            | none => rfl
            | some p => simp [hasDelimMatch, hm] at h
          have h3 : hasDelimMatch rest = false := by
            simp [hasDelimMatch] at h
            exact h.2
          show (match matchAt (c :: rest) with
            | some (frag, after) =>
                (if pending.isEmpty then [] else [pending.reverse]) ++
                  frag :: lexScanF f [] after
            | none => lexScanF f (c :: pending) rest) = _
          rw [h2, ih (c :: pending) rest h3]
          simp

/-- C8 counterexample: `"{#x"` contains no complete delimiter pair, yet it
does not render verbatim — `Lexer._get_token` classifies the fragment by
its `{#` prefix as a comment token, which is dropped, so the template
renders the empty string. -/
theorem no_tag_verbatim_counterexample :
    hasDelimMatch "\x7b#x".data = false ∧
    templateRender trivProc 10 "\x7b#x" [] emptyLoader vnone = .ok (.ok "") ∧
    ("" : String) ≠ "\x7b#x" :=
  ⟨by decide, rfl, by decide⟩

/-- C8 amended: a source text containing no complete delimiter pair *and
not beginning with one of the four start delimiters* compiles (under any
tag processor) and renders (with any data) to the source text verbatim:
the whole text becomes a single untrimmed text token, text nodes render
their content unchanged, and unterminated delimiters in the interior are
ordinary text.  (A no-pair text that *begins* with a start delimiter is
instead classified by its prefix, as the counterexample shows.) -/
theorem no_tag_text_renders_verbatim :
    ∀ (proc : TagProc) (s : String) (data : Scope) (loader : Value → Option TNode)
      (clock : Value) (fuel : Nat),
      hasDelimMatch s.data = false → startsWithDelim s.data = false →
      templateRender proc (fuel + 3) s data loader clock = .ok (.ok s) := by
  intro proc s data loader clock fuel h1 h2
  obtain ⟨sdata⟩ := s
  match sdata with
  | [] => rfl
  | c :: rest =>
      simp only [startsWithDelim, Bool.or_eq_false_iff] at h2
      obtain ⟨⟨⟨he, hp⟩, hy⟩, hc⟩ := h2
      have hscan : lexScan [] (c :: rest) = [c :: rest] := by
        have := lexScanF_noMatch (c :: rest).length [] (c :: rest) h1
        simpa [lexScan] using this
      have htok : lex (String.mk (c :: rest))
          = [{ ttype := .ttext, tag := none,
               content := some (String.mk (c :: rest)) }] := by
        have hne : (String.mk (c :: rest) != "") = true := by
          simp [String.ext_iff]
        simp [lex, hscan, getToken, he, hp, hy, hc, contentTruthy, hne]
      simp only [templateRender, htok]
      simp [parseTokens, parseGo, renderTemplate, renderNode, renderList,
        registerBlocks, registerBlocksList, mkEnv, appendChild,
        String.append_empty]

/-- Witness for the amended C8: a plain text with an unterminated interior
delimiter renders verbatim. -/
theorem no_tag_text_renders_verbatim_witness :
    hasDelimMatch "ab \x7b\x7b cd".data = false ∧
    startsWithDelim "ab \x7b\x7b cd".data = false ∧
    templateRender trivProc 3 "ab \x7b\x7b cd" [] emptyLoader vnone
      = .ok (.ok "ab \x7b\x7b cd") :=
  ⟨by decide, by decide,
   no_tag_text_renders_verbatim trivProc "ab \x7b\x7b cd" [] emptyLoader vnone 0
     (by decide) (by decide)⟩

/-! ## C10 -/

/-- Conditions of one `and`-group. -/
def condsOfGroup (g : CondGroup) : List Condition :=
  g.1 :: g.2

/-- Conditions of a list of groups. -/
def condsOfGroupList : List CondGroup → List Condition
  | [] => []
  | g :: gs => condsOfGroup g ++ condsOfGroupList gs

/-- Conditions of a full `or`-of-`and`s. -/
def condsOfGroups (gs : CondGroups) : List Condition :=
  condsOfGroup gs.1 ++ condsOfGroupList gs.2

mutual

/-- All if/elif conditions appearing anywhere in a node (children and
branch wrappers included). -/
def collectConds : TNode → List Condition
  | .text _ ch => collectCondsList ch
  | .printN _ _ ch => collectCondsList ch
  | .seq ch => collectCondsList ch
  | .emptyN ch => collectCondsList ch
  | .elifN gs ch => condsOfGroups gs ++ collectCondsList ch
  | .elseN ch => collectCondsList ch
  | .forN _ _ _ _ fb eb ch =>
      collectConds fb ++ (collectConds eb ++ collectCondsList ch)
  | .ifN gs tb fb ch =>
      condsOfGroups gs ++ (collectConds tb ++ (collectConds fb ++ collectCondsList ch))
  | .cycleN _ _ ch => collectCondsList ch
  | .includeN _ ch => collectCondsList ch
  | .extendsN ch => collectCondsList ch
  | .blockN _ _ ch => collectCondsList ch
  | .spacelessN ch => collectCondsList ch
  | .trimN ch => collectCondsList ch
  | .withN _ _ ch => collectCondsList ch

def collectCondsList : List TNode → List Condition
  | [] => []
  | n :: ns => collectConds n ++ collectCondsList ns

end

/-- A condition whose raw evaluation (the `try` body of
`eval_condition`) leaves the scope stack unchanged whether it succeeds or
raises.  Every condition that does not render blocks through a `super()`
call has this property; a condition that fails mid-`super()` does not. -/
def PreservesCond (c : Condition) : Prop :=
  ∀ (fuel : Nat) (env : Env) (ctx : Ctx),
    ((evalCondRaw fuel env c ctx).2).stack = ctx.stack

/-- All conditions reachable through the environment (registry block
bodies and loader-supplied templates) preserve the stack. -/
def EnvCondsOK (env : Env) : Prop :=
  (∀ (title : String) (entries : List (Nat × List TNode)),
      alookup env.registry title = some entries →
      ∀ e ∈ entries, ∀ c ∈ collectCondsList e.2, PreservesCond c) ∧
  (∀ (v : Value) (t : TNode), env.loader v = some t →
      ∀ c ∈ collectConds t, PreservesCond c)

/-- Conditions with a literal left side and no operator preserve the
stack under raw evaluation. -/
theorem litCondPreserves (neg : Bool) (v : Value) :
    PreservesCond { negated := neg, lhs := .lit v, cmp := none } := by
  intro fuel env ctx
  match fuel with
  | 0 => rfl
  | 1 => rfl
  | f + 2 => rfl

theorem evalConditionPreserves (fuel : Nat) (env : Env) (c : Condition)
    (ctx : Ctx) (h : PreservesCond c) :
    ((evalCondition fuel env c ctx).2).stack = ctx.stack := by
  match fuel with
  | 0 => rfl
  | f + 1 =>
      have hr := h f env ctx
      show ((match evalCondRaw f env c ctx with
        | (.ok b, c1) => ((if c.negated then !b else b : Bool), c1)
        | (.error _, c1) =>
            ((if c.negated then !false else false : Bool), c1)) :
          Bool × Ctx).2.stack = ctx.stack
      cases he : evalCondRaw f env c ctx with
      | mk r c1 =>
          rw [he] at hr
          cases r <;> simpa using hr

theorem evalGroupRestPreserves :
    ∀ (fuel : Nat) (env : Env) (cs : List Condition) (ctx : Ctx),
      (∀ c ∈ cs, PreservesCond c) →
      ((evalGroupRest fuel env cs ctx).2).stack = ctx.stack := by
  intro fuel
  induction fuel with
  | zero => intro env cs ctx _; rfl
  | succ f ih =>
      intro env cs ctx h
      match cs with
      | [] => rfl
      | c :: rest =>
          have hc := evalConditionPreserves f env c ctx (h c (by simp))
          show ((match evalCondition f env c ctx with
            | (true, c1) => evalGroupRest f env rest c1
            | (false, c1) => (false, c1)) : Bool × Ctx).2.stack = ctx.stack
          cases he : evalCondition f env c ctx with
          | mk b c1 =>
              rw [he] at hc
              cases b
              · simpa using hc
              · have := ih env rest c1 (fun c2 hc2 => h c2 (by simp [hc2]))
                simpa [this] using hc

theorem evalGroupsPreserves :
    ∀ (fuel : Nat) (env : Env) (g : CondGroup) (gs : List CondGroup) (ctx : Ctx),
      (∀ c ∈ condsOfGroup g, PreservesCond c) →
      (∀ c ∈ condsOfGroupList gs, PreservesCond c) →
      ((evalGroups fuel env g gs ctx).2).stack = ctx.stack := by
  intro fuel
  induction fuel with
  | zero => intro env g gs ctx _ _; rfl
  | succ f ih =>
      intro env g gs ctx hg hgs
      have hc := evalConditionPreserves f env g.1 ctx
        (hg g.1 (by simp [condsOfGroup]))
      cases he : evalCondition f env g.1 ctx with
      | mk b0 c1 =>
          rw [he] at hc
          cases hr : (if b0 then evalGroupRest f env g.2 c1 else (false, c1)) with
          | mk b2 c2 =>
              have hc2 : c2.stack = ctx.stack := by
                cases b0
                · simp at hr
                  rw [← hr.2]
                  exact hc
                · simp only [if_pos rfl, if_true] at hr
                  have h3 := evalGroupRestPreserves f env g.2 c1
                    (fun c3 hc3 => hg c3 (by simp [condsOfGroup, hc3]))
                  rw [hr] at h3
                  exact h3.trans hc
              cases b2
              · cases gs with
                | nil =>
                    simp only [evalGroups, he, hr]
                    exact hc2
                | cons g2 rest =>
                    have h4 := ih env g2 rest c2
                      (fun c3 hc3 => hgs c3 (by
                        simp only [condsOfGroupList, List.mem_append]
                        exact Or.inl hc3))
                      (fun c3 hc3 => hgs c3 (by
                        simp only [condsOfGroupList, List.mem_append]
                        exact Or.inr hc3))
                    simp only [evalGroups, he, hr]
                    exact h4.trans hc2
              · simp only [evalGroups, he, hr]
                exact hc2

theorem setTopScopeAppend (l : List Scope) (s : Scope) (k : String) (v : Value) :
    setTopScope (l ++ [s]) k v = l ++ [scopeSet s k v] := by
  induction l with
  | nil => rfl
  | cons a l ih =>
      rcases l with _ | ⟨b, m⟩
      · rfl
      · simpa [setTopScope] using ih

theorem ctxSetStack (ctx : Ctx) (l : List Scope) (s : Scope) (k : String)
    (v : Value) (h : ctx.stack = l ++ [s]) :
    (ctxSet ctx k v).stack = l ++ [scopeSet s k v] := by
  simp [ctxSet, h, setTopScopeAppend]

theorem ctxUpdateStack :
    ∀ (binds : List (String × Value)) (ctx : Ctx) (l : List Scope) (s : Scope),
      ctx.stack = l ++ [s] → ∃ s2, (ctxUpdate ctx binds).stack = l ++ [s2] := by
  intro binds
  induction binds with
  | nil => intro ctx l s h; exact ⟨s, h⟩
  | cons b bs ih =>
      intro ctx l s h
      exact ih (ctxSet ctx b.1 b.2) l (scopeSet s b.1 b.2)
        (ctxSetStack ctx l s b.1 b.2 h)

theorem getLastDMem {α : Type} (e : α) (es : List α) (d : α) :
    (e :: es).getLastD d ∈ e :: es := by
  rw [List.getLastD_eq_getLast?]
  simp [List.getLast?_eq_getLast]

theorem filterMatchStack (src : String) (fs : List FilterApp) (w : Value)
    (ctx : Ctx) (v : Value) (c2 : Ctx)
    (hr : (match applyFilters src fs w with
           | .ok u => ((Except.ok u : Except RErr Value), ctx)
           | .error er => (.error er, ctx)) = (.ok v, c2)) :
    c2.stack = ctx.stack := by
  cases haf : applyFilters src fs w <;> rw [haf] at hr <;> simp at hr
  rw [← hr.2]

theorem enginePreservesStack : ∀ (fuel : Nat),
    (∀ (env : Env) (n : TNode) (ctx : Ctx) (s : String) (c2 : Ctx),
        EnvCondsOK env → (∀ c ∈ collectConds n, PreservesCond c) →
        renderNode fuel env n ctx = (.ok s, c2) → c2.stack = ctx.stack) ∧
    (∀ (env : Env) (ns : List TNode) (ctx : Ctx) (s : String) (c2 : Ctx),
        EnvCondsOK env → (∀ c ∈ collectCondsList ns, PreservesCond c) →
        renderList fuel env ns ctx = (.ok s, c2) → c2.stack = ctx.stack) ∧
    (∀ (env : Env) (src v0 : String) (vs : List String) (br : TNode)
       (items : List Value) (idx len : Nat) (ctx : Ctx) (s : String) (c2 : Ctx),
        EnvCondsOK env → (∀ c ∈ collectConds br, PreservesCond c) →
        forIter fuel env src v0 vs br items idx len ctx = (.ok s, c2) →
        c2.stack = ctx.stack) ∧
    (∀ (env : Env) (title : String) (entries : List (Nat × List TNode))
       (ctx : Ctx) (s : String) (c2 : Ctx),
        EnvCondsOK env →
        (∀ e ∈ entries, ∀ c ∈ collectCondsList e.2, PreservesCond c) →
        renderBlockList fuel env title entries ctx = (.ok s, c2) →
        c2.stack = ctx.stack) ∧
    (∀ (env : Env) (e : Expr) (ctx : Ctx) (v : Value) (c2 : Ctx),
        EnvCondsOK env → evalExpr fuel env e ctx = (.ok v, c2) →
        c2.stack = ctx.stack) ∧
    (∀ (env : Env) (fn : PyFunc) (args : List Value) (ctx : Ctx) (v : Value)
       (c2 : Ctx),
        EnvCondsOK env → callFunc fuel env fn args ctx = (.ok v, c2) →
        c2.stack = ctx.stack) ∧
    (∀ (env : Env) (ps : PrintSpec) (ctx : Ctx) (v : Value) (c2 : Ctx),
        EnvCondsOK env → evalPrint fuel env ps ctx = (.ok v, c2) →
        c2.stack = ctx.stack) ∧
    (∀ (env : Env) (e : Expr) (rest : List Expr) (ctx : Ctx) (v : Value)
       (c2 : Ctx),
        EnvCondsOK env → orChainEval fuel env e rest ctx = (.ok v, c2) →
        c2.stack = ctx.stack) := by
  intro fuel
  induction fuel with
  | zero =>
      refine ⟨?_, ?_, ?_, ?_, ?_, ?_, ?_, ?_⟩ <;>
        (intro _ _ _ _ _; intros; simp_all [renderNode, renderList, forIter,
          renderBlockList, evalExpr, callFunc, evalPrint, orChainEval])
  | succ f ih =>
      obtain ⟨ihRN, ihRL, ihFI, ihRBL, ihEE, ihCF, ihEP, ihOC⟩ := ih
      have hRL : ∀ (env : Env) (ns : List TNode) (ctx : Ctx) (s : String) (c2 : Ctx),
          EnvCondsOK env → (∀ c ∈ collectCondsList ns, PreservesCond c) →
          renderList (f + 1) env ns ctx = (.ok s, c2) → c2.stack = ctx.stack := by
        intro env ns ctx s c2 henv hconds hr
        match ns with
        | [] =>
            simp only [renderList] at hr
            cases hr
            rfl
        | n :: rest =>
            simp only [renderList] at hr
            cases h1 : renderNode f env n ctx with
            | mk r1 c1 =>
                rw [h1] at hr
                cases r1 with
                | error er => simp at hr
                | ok s1 =>
                    simp only [] at hr
                    cases h2 : renderList f env rest c1 with
                    | mk r2 cB =>
                        rw [h2] at hr
                        cases r2 with
                        | error er => simp at hr
                        | ok t =>
                            have hs1 := ihRN env n ctx s1 c1 henv
                              (fun c hc => hconds c (by
                                simp only [collectCondsList, List.mem_append]
                                exact Or.inl hc)) h1
                            have hs2 := ihRL env rest c1 t cB henv
                              (fun c hc => hconds c (by
                                simp only [collectCondsList, List.mem_append]
                                exact Or.inr hc)) h2
                            simp at hr
                            rw [← hr.2]
                            exact hs2.trans hs1
      have hRBL : ∀ (env : Env) (title : String)
          (entries : List (Nat × List TNode)) (ctx : Ctx) (s : String) (c2 : Ctx),
          EnvCondsOK env →
          (∀ e ∈ entries, ∀ c ∈ collectCondsList e.2, PreservesCond c) →
          renderBlockList (f + 1) env title entries ctx = (.ok s, c2) →
          c2.stack = ctx.stack := by
        intro env title entries ctx s c2 henv hents hr
        match entries with
        | [] =>
            simp only [renderBlockList] at hr
            cases hr
            rfl
        | e :: es =>
            simp only [renderBlockList] at hr
            cases hl : renderList f env ((e :: es).getLastD (0, [])).2
                (ctxPush ctx
                  [("super",
                    vfunc (.superF title (((e :: es).dropLast).map Prod.fst)))]) with
            | mk r1 cB =>
                rw [hl] at hr
                cases r1 with
                | error er => simp at hr
                | ok out =>
                    have hsB := ihRL env ((e :: es).getLastD (0, [])).2
                      (ctxPush ctx
                        [("super",
                          vfunc (.superF title (((e :: es).dropLast).map Prod.fst)))])
                      out cB henv
                      (hents ((e :: es).getLastD (0, [])) (getLastDMem e es (0, []))) hl
                    simp at hr
                    rw [← hr.2]
                    have hcb : cB.stack = ctx.stack ++
                        [[("super",
                           vfunc (.superF title (((e :: es).dropLast).map Prod.fst)))]] := by
                      simpa [ctxPush] using hsB
                    simp [ctxPop, hcb]
      refine ⟨?_, hRL, ?_, hRBL, ?_, ?_, ?_, ?_⟩
      · -- renderNode
        intro env n ctx s c2 henv hconds hr
        match n with
        | .text content ch =>
            simp only [renderNode] at hr
            cases hr
            rfl
        | .printN esc ps ch =>
            simp only [renderNode] at hr
            cases hp : evalPrint f env ps ctx with
            | mk r1 c1 =>
                rw [hp] at hr
                cases r1 with
                | error er => simp at hr
                | ok v1 =>
                    have h1 := ihEP env ps ctx v1 c1 henv hp
                    simp at hr
                    rw [← hr.2]
                    exact h1
        | .seq ch =>
            simp only [renderNode] at hr
            exact ihRL env ch ctx s c2 henv hconds hr
        | .emptyN ch =>
            simp only [renderNode] at hr
            exact ihRL env ch ctx s c2 henv hconds hr
        | .elifN gs ch =>
            simp only [renderNode] at hr
            exact ihRL env ch ctx s c2 henv
              (fun c hc => hconds c (by
                simp only [collectConds, List.mem_append]
                exact Or.inr hc)) hr
        | .elseN ch =>
            simp only [renderNode] at hr
            exact ihRL env ch ctx s c2 henv hconds hr
        | .forN src v0 vs e fb eb ch =>
            simp only [renderNode] at hr
            cases hv : evalExpr f env e ctx with
            | mk r1 c1 =>
                rw [hv] at hr
                cases r1 with
                | error er => simp at hr
                | ok v1 =>
                    have h1 := ihEE env e ctx v1 c1 henv hv
                    simp only [] at hr
                    have hfb : ∀ c ∈ collectConds fb, PreservesCond c :=
                      fun c hc => hconds c (by
                        simp only [collectConds, List.mem_append]
                        tauto)
                    have heb : ∀ c ∈ collectConds eb, PreservesCond c :=
                      fun c hc => hconds c (by
                        simp only [collectConds, List.mem_append]
                        tauto)
                    cases hit : iterElems v1 with
                    | none =>
                        rw [hit] at hr
                        exact (ihRN env eb c1 s c2 henv heb hr).trans h1
                    | some items =>
                        rw [hit] at hr
                        simp only [] at hr
                        by_cases hb : pyTruth v1 = true
                        · rw [if_pos hb] at hr
                          exact (ihFI env src v0 vs fb items 0 items.length c1
                            s c2 henv hfb hr).trans h1
                        · rw [if_neg hb] at hr
                          exact (ihRN env eb c1 s c2 henv heb hr).trans h1
        | .ifN gs tb fb ch =>
            obtain ⟨g, gs2⟩ := gs
            simp only [renderNode] at hr
            cases hg : evalGroups f env g gs2 ctx with
            | mk b c1 =>
                rw [hg] at hr
                have hstack1 : c1.stack = ctx.stack := by
                  have := evalGroupsPreserves f env g gs2 ctx
                    (fun c hc => hconds c (by
                      simp only [collectConds, condsOfGroups, List.mem_append]
                      tauto))
                    (fun c hc => hconds c (by
                      simp only [collectConds, condsOfGroups, List.mem_append]
                      tauto))
                  rw [hg] at this
                  exact this
                have hbr : ∀ c ∈ collectConds (if b then tb else fb),
                    PreservesCond c := by
                  cases b <;> simp only [if_true, if_false, Bool.false_eq_true] <;>
                    exact fun c hc => hconds c (by
                      simp only [collectConds, List.mem_append]
                      tauto)
                exact (ihRN env (if b then tb else fb) c1 s c2 henv hbr hr).trans
                  hstack1
        | .cycleN id e ch =>
            simp only [renderNode] at hr
            cases hst : nlookup ctx.stash id with
            | some p =>
                rw [hst] at hr
                obtain ⟨items, pos⟩ := p
                match items, hr with
                | [], hr =>
                    simp at hr
                    rw [← hr.2]
                | x :: xs, hr =>
                    simp at hr
                    rw [← hr.2]
            | none =>
                rw [hst] at hr
                cases hv : evalExpr f env e ctx with
                | mk r1 c1 =>
                    rw [hv] at hr
                    cases r1 with
                    | error er => simp at hr
                    | ok v1 =>
                        have h1 := ihEE env e ctx v1 c1 henv hv
                        simp only [] at hr
                        cases hit : (match iterElems v1 with
                          | some xs => xs
                          | none => ([] : List Value)) with
                        | nil =>
                            rw [hit] at hr
                            simp at hr
                            rw [← hr.2]
                            exact h1
                        | cons x xs =>
                            rw [hit] at hr
                            simp at hr
                            rw [← hr.2]
                            exact h1
        | .includeN eOpt ch =>
            match ch with
            | c0 :: crest =>
                simp only [renderNode] at hr
                exact ihRL env (c0 :: crest) ctx s c2 henv hconds hr
            | [] =>
                match eOpt with
                | some e =>
                    simp only [renderNode] at hr
                    cases hv : evalExpr f env e ctx with
                    | mk r1 c1 =>
                        rw [hv] at hr
                        cases r1 with
                        | error er => simp at hr
                        | ok v1 =>
                            have h1 := ihEE env e ctx v1 c1 henv hv
                            simp only [] at hr
                            cases hl : env.loader v1 with
                            | none => rw [hl] at hr; simp at hr
                            | some root =>
                                rw [hl] at hr
                                exact (ihRN env root c1 s c2 henv
                                  (henv.2 v1 root hl) hr).trans h1
                | none =>
                    simp only [renderNode] at hr
                    simp at hr
        | .extendsN ch =>
            simp only [renderNode] at hr
            exact ihRL env ch ctx s c2 henv hconds hr
        | .blockN id title ch =>
            simp only [renderNode] at hr
            cases hreg : alookup env.registry title with
            | none => rw [hreg] at hr; simp at hr
            | some entries =>
                rw [hreg] at hr
                match entries, hreg with
                | [], hreg => simp at hr
                | (fid, fch) :: rest, hreg =>
                    simp only [] at hr
                    by_cases hfid : fid = id
                    · rw [if_pos hfid] at hr
                      exact ihRBL env title ((fid, fch) :: rest) ctx s c2 henv
                        (henv.1 title ((fid, fch) :: rest) hreg) hr
                    · rw [if_neg hfid] at hr
                      simp at hr
                      rw [← hr.2]
        | .spacelessN ch =>
            simp only [renderNode] at hr
            cases hl : renderList f env ch ctx with
            | mk r1 c1 =>
                rw [hl] at hr
                cases r1 with
                | error er => simp at hr
                | ok s1 =>
                    have h1 := ihRL env ch ctx s1 c1 henv hconds hl
                    simp at hr
                    rw [← hr.2]
                    exact h1
        | .trimN ch =>
            simp only [renderNode] at hr
            cases hl : renderList f env ch ctx with
            | mk r1 c1 =>
                rw [hl] at hr
                cases r1 with
                | error er => simp at hr
                | ok s1 =>
                    have h1 := ihRL env ch ctx s1 c1 henv hconds hl
                    simp at hr
                    rw [← hr.2]
                    exact h1
        | .withN a e ch =>
            simp only [renderNode] at hr
            cases hv : evalExpr f env e (ctxPush ctx []) with
            | mk r1 cB =>
                rw [hv] at hr
                cases r1 with
                | error er => simp at hr
                | ok v1 =>
                    have h1 : cB.stack = ctx.stack ++ [[]] := by
                      simpa [ctxPush] using ihEE env e (ctxPush ctx []) v1 cB henv hv
                    simp only [] at hr
                    cases hl : renderList f env ch (ctxSet cB a v1) with
                    | mk r2 c4 =>
                        rw [hl] at hr
                        cases r2 with
                        | error er => simp at hr
                        | ok s1 =>
                            have h2 := ihRL env ch (ctxSet cB a v1) s1 c4 henv
                              hconds hl
                            have h3 : (ctxSet cB a v1).stack
                                = ctx.stack ++ [scopeSet [] a v1] :=
                              ctxSetStack cB ctx.stack [] a v1 h1
                            simp at hr
                            rw [← hr.2]
                            rw [h3] at h2
                            simp [ctxPop, h2]
      · -- forIter
        intro env src v0 vs br items idx len ctx s c2 henv hconds hr
        match items with
        | [] =>
            simp only [forIter] at hr
            cases hr
            rfl
        | item :: rest =>
            simp only [forIter] at hr
            match vs, hr with
            | [], hr =>
                simp only [] at hr
                cases hb : renderNode f env br
                    (ctxSet (ctxSet (ctxPush ctx []) v0 item) "loop"
                      (loopRecord idx len
                        (ctxGet (ctxSet (ctxPush ctx []) v0 item) "loop" vnone))) with
                | mk rb c4 =>
                    rw [hb] at hr
                    cases rb with
                    | error er => simp at hr
                    | ok s4 =>
                        have hc4 := ihRN env br _ s4 c4 henv hconds hb
                        have hc4s : c4.stack
                            = ctx.stack ++ [scopeSet (scopeSet [] v0 item) "loop"
                                (loopRecord idx len
                                  (ctxGet (ctxSet (ctxPush ctx []) v0 item)
                                    "loop" vnone))] := by
                          rw [hc4]
                          rw [ctxSetStack _ ctx.stack (scopeSet [] v0 item) _ _
                            (ctxSetStack _ ctx.stack [] _ _ rfl)]
                        simp only [] at hr
                        cases hf2 : forIter f env src v0 [] br rest (idx + 1) len
                            (ctxPop c4) with
                        | mk r6 c6 =>
                            rw [hf2] at hr
                            cases r6 with
                            | error er => simp at hr
                            | ok t =>
                                have hc6 := ihFI env src v0 [] br rest (idx + 1)
                                  len (ctxPop c4) t c6 henv hconds hf2
                                simp at hr
                                rw [← hr.2, hc6]
                                simp [ctxPop, hc4s]
            | v1 :: vr, hr =>
                cases hie : iterElems item with
                | none =>
                    rw [hie] at hr
                    simp at hr
                | some parts =>
                    rw [hie] at hr
                    simp only [] at hr
                    obtain ⟨s2, hs2⟩ := ctxUpdateStack ((v0 :: v1 :: vr).zip parts)
                      (ctxPush ctx []) ctx.stack [] rfl
                    cases hb : renderNode f env br
                        (ctxSet (ctxUpdate (ctxPush ctx [])
                            ((v0 :: v1 :: vr).zip parts)) "loop"
                          (loopRecord idx len
                            (ctxGet (ctxUpdate (ctxPush ctx [])
                              ((v0 :: v1 :: vr).zip parts)) "loop" vnone))) with
                    | mk rb c4 =>
                        rw [hb] at hr
                        cases rb with
                        | error er => simp at hr
                        | ok s4 =>
                            have hc4 := ihRN env br _ s4 c4 henv hconds hb
                            have hc4s : c4.stack = ctx.stack ++ [scopeSet s2 "loop"
                                (loopRecord idx len
                                  (ctxGet (ctxUpdate (ctxPush ctx [])
                                    ((v0 :: v1 :: vr).zip parts)) "loop" vnone))] := by
                              rw [hc4]
                              rw [ctxSetStack _ ctx.stack s2 _ _ hs2]
                            simp only [] at hr
                            cases hf2 : forIter f env src v0 (v1 :: vr) br rest
                                (idx + 1) len (ctxPop c4) with
                            | mk r6 c6 =>
                                rw [hf2] at hr
                                cases r6 with
                                | error er => simp at hr
                                | ok t =>
                                    have hc6 := ihFI env src v0 (v1 :: vr) br rest
                                      (idx + 1) len (ctxPop c4) t c6 henv hconds hf2
                                    simp at hr
                                    rw [← hr.2, hc6]
                                    simp [ctxPop, hc4s]
      · -- evalExpr
        intro env e ctx v c2 henv hr
        match e with
        | .lit w =>
            simp only [evalExpr] at hr
            cases hr
            rfl
        | .varE src path args fs =>
            simp only [evalExpr] at hr
            cases hres : resolve ctx path <;> rw [hres] at hr <;>
              simp only [] at hr
            all_goals first
              | exact filterMatchStack _ _ _ _ _ _ hr
              | (rename_i fn
                 cases hcf : callFunc f env fn args ctx with
                 | mk rc c1 =>
                     rw [hcf] at hr
                     cases rc with
                     | error er => simp at hr
                     | ok vv =>
                         have h1 := ihCF env fn args ctx vv c1 henv hcf
                         simp only [] at hr
                         cases haf : applyFilters src fs vv with
                         | ok w =>
                             rw [haf] at hr
                             simp at hr
                             rw [← hr.2]
                             exact h1
                         | error er =>
                             rw [haf] at hr
                             simp at hr)
      · -- callFunc
        intro env fn args ctx v c2 henv hr
        simp only [callFunc] at hr
        match fn, args, hr with
        | .definedF, [vstr sx], hr => simp at hr; rw [← hr.2]
        | .rangeF, [vint n], hr => simp at hr; rw [← hr.2]
        | .rangeF, [vint a, vint b], hr => simp at hr; rw [← hr.2]
        | .nowF, [], hr => simp at hr; rw [← hr.2]
        | .superF title ids, [], hr =>
            simp only [] at hr
            cases hreg : alookup env.registry title with
            | none => rw [hreg] at hr; simp at hr
            | some entries =>
                rw [hreg] at hr
                simp only [] at hr
                cases hrb : renderBlockList f env title
                    (entries.filter (fun e => ids.contains e.1)) ctx with
                | mk rb c1 =>
                    rw [hrb] at hr
                    cases rb with
                    | error er => simp at hr
                    | ok sX =>
                        have h1 := ihRBL env title
                          (entries.filter (fun e => ids.contains e.1)) ctx sX c1
                          henv
                          (fun e2 he2 c hc =>
                            henv.1 title entries hreg e2
                              (List.mem_filter.mp he2).1 c hc) hrb
                        simp at hr
                        rw [← hr.2]
                        exact h1
        | .raisingF msg, a, hr => simp at hr
      · -- evalPrint
        intro env ps ctx v c2 henv hr
        match ps with
        | .ternary t a b =>
            simp only [evalPrint] at hr
            cases ht : evalExpr f env t ctx with
            | mk r1 c1 =>
                rw [ht] at hr
                cases r1 with
                | error er => simp at hr
                | ok vt =>
                    have h1 := ihEE env t ctx vt c1 henv ht
                    simp only [] at hr
                    by_cases hb : pyTruth vt = true
                    · rw [if_pos hb] at hr
                      exact (ihEE env a c1 v c2 henv hr).trans h1
                    · rw [if_neg hb] at hr
                      exact (ihEE env b c1 v c2 henv hr).trans h1
        | .orChain e1 rest =>
            simp only [evalPrint] at hr
            exact ihOC env e1 rest ctx v c2 henv hr
      · -- orChainEval
        intro env e rest ctx v c2 henv hr
        simp only [orChainEval] at hr
        cases he : evalExpr f env e ctx with
        | mk r1 c1 =>
            rw [he] at hr
            cases r1 with
            | error er => simp at hr
            | ok v1 =>
                have h1 := ihEE env e ctx v1 c1 henv he
                simp only [] at hr
                by_cases hb : pyTruth v1 = true
                · rw [if_pos hb] at hr
                  simp at hr
                  rw [← hr.2]
                  exact h1
                · rw [if_neg hb] at hr
                  match rest with
                  | [] =>
                      simp at hr
                      rw [← hr.2]
                      exact h1
                  | e2 :: es =>
                      exact (ihOC env e2 es c1 v c2 henv hr).trans h1

/-- Derived-block leak scenario, ancestor block body: a print node calling
`defined` with two arguments, which raises a `CallError` at render time. -/
def b1ch : List TNode :=
  [.printN false (.orChain (.varE "defined('a','b')" "defined"
    [vstr "a", vstr "b"] []) []) []]

/-- Derived-block leak scenario, if-condition of the most-derived block:
bare truth test of `super`, which invokes the ancestor block render. -/
def leakCond : Condition :=
  { negated := false, lhs := .varE "super" "super" [] [], cmp := none }

/-- Derived-block leak scenario, most-derived block body. -/
def b2ch : List TNode := [.ifN ((leakCond, []), []) (.seq []) (.seq []) []]

/-- Derived-block leak scenario, full tree: a base block of title `t`
brought in by `extends`, overridden by a derived block whose if-condition
calls `super()`. -/
def leakRoot : TNode :=
  .seq [.extendsN [.seq [.blockN 1 "t" b1ch]], .blockN 2 "t" b2ch]

/-- Environment of the leak scenario: the registry assembled from
`leakRoot` exactly as `Template.__init__` does. -/
def leakEnv : Env := mkEnv (registerBlocks leakRoot []) emptyLoader vnone

/-- C10 (counterexample): rendering `leakRoot` returns normally with
output `""`, yet the final scope stack holds four scopes where the entry
context held three.  The `super()` call made while evaluating the derived
block's if-condition pushes the `render_block` scope, the ancestor block
body raises a `CallError` before the matching pop, and `eval_condition`
swallows the exception — so render returns normally with an extra scope
left on the stack, refuting the balance invariant as stated. -/
theorem scope_stack_leak_counterexample :
    (renderNode 20 leakEnv leakRoot (mkCtx [])).1 = .ok "" ∧
    ((renderNode 20 leakEnv leakRoot (mkCtx [])).2).stack.length = 4 ∧
    (mkCtx []).stack.length = 3 :=
  ⟨rfl, rfl, rfl⟩

/-- C10 (amended): whenever `render` returns normally, the scope stack is
exactly the one it was entered with — provided every if/elif condition
reachable from the node, and from the block registry and loader, leaves
the stack unchanged under raw evaluation whether it succeeds or raises
(`PreservesCond`; true of every condition that does not render blocks via
`super()`).  Without that proviso the invariant fails, as
the leak counterexample shows. -/
theorem render_preserves_scope_stack (fuel : Nat) (env : Env) (n : TNode)
    (ctx : Ctx) (s : String) (c2 : Ctx) (henv : EnvCondsOK env)
    (hconds : ∀ c ∈ collectConds n, PreservesCond c)
    (hr : renderNode fuel env n ctx = (.ok s, c2)) :
    c2.stack = ctx.stack :=
  (enginePreservesStack fuel).1 env n ctx s c2 henv hconds hr

/-- Witness condition: literal truth test. -/
def wCond : Condition := { negated := false, lhs := .lit (vint 1), cmp := none }

/-- Witness tree: a `with` scope containing an `if` with a literal
condition. -/
def wNode : TNode :=
  .withN "y" (.lit (vint 1))
    [.ifN ((wCond, []), []) (.text "T" []) (.seq []) []]

/-- Witness environment: empty registry, loader resolving nothing. -/
def wEnv : Env := mkEnv [] emptyLoader vnone

/-- Instantiates the amended C10 theorem on the witness tree: the render
succeeds and the stack is restored. -/
theorem render_preserves_scope_stack_witness :
    ((renderNode 10 wEnv wNode (mkCtx [])).2).stack = (mkCtx []).stack :=
  render_preserves_scope_stack 10 wEnv wNode (mkCtx []) "T"
    ((renderNode 10 wEnv wNode (mkCtx [])).2)
    ⟨fun title entries h => by simp [wEnv, mkEnv, alookup] at h,
     fun v t h => by simp [wEnv, mkEnv, emptyLoader] at h⟩
    (fun c hc => by
      have he : collectConds wNode = [wCond] := rfl
      rw [he] at hc
      simp at hc
      subst hc
      exact litCondPreserves false (vint 1))
    rfl
